import Mathlib

/-!
# Stack-frame reconstruction of the snapshot debugger

A shallow embedding of `google_cloud_debugger_lib/stackframecollection.cc`
(`StackFrameCollection::Initialize`,
`StackFrameCollection::PopulateLocalVarsAndMethodArgs` and
`StackFrameCollection::PrintStackFrames`) together with the properties of the
stack-frame resolver that are checked against it.

Conventions of the embedding:

* `HRESULT` is a signed 32-bit value, embedded as `Int`; `SUCCEEDED hr` is
  `0 ≤ hr` and `FAILED hr` is `hr < 0`.
* Tokens, instruction offsets and lengths are unsigned 32-bit values, embedded
  as `Nat`; the one addition the code performs on them
  (`start_offset + length`) is reduced modulo `2 ^ 32`.
* The native debugging interface and the metadata import are external: every
  call on them is described by the outcome it reports, and every call that is
  made is recorded, in order, in a trace (of `Event`s for the walk, of
  `PrintCall`s for the printing of the stored frames).
* A pointer argument is an `Option`, the null pointer being `none`.
-/

namespace google_cloud_debugger

/-! ## Result codes -/

/-- Result code of a call on the native interface (a signed 32-bit value). -/
abbrev HRESULT := Int

/-- Success. -/
def S_OK : HRESULT := 0

/-- Success with a negative answer. -/
def S_FALSE : HRESULT := 1

/-- Failure code `0x80070057`, read as a signed 32-bit value. -/
def E_INVALIDARG : HRESULT := -2147024809

/-- Failure code `0x80004005`, read as a signed 32-bit value. -/
def E_FAIL : HRESULT := -2147467259

/-- The `SUCCEEDED` test: the code is non-negative. -/
def SUCCEEDED (hr : HRESULT) : Bool := decide (0 ≤ hr)

/-- The `FAILED` test: the code is negative. -/
def FAILED (hr : HRESULT) : Bool := decide (hr < 0)

/-! ## Symbol data model (portable pdb) -/

/-- One sequence point of a method. -/
structure SequencePoint where
  start_line : Nat
  end_line : Nat
  start_col : Nat
  end_col : Nat
  il_offset : Nat
  is_hidden : Bool
deriving DecidableEq, Repr

/-- A local variable of a scope: its name and slot. -/
structure LocalVariableInfo where
  name : String
  slot : Nat
deriving DecidableEq, Repr

/-- A local scope of a method: an offset range and the variables it owns. -/
structure LocalScopeInfo where
  start_offset : Nat
  length : Nat
  local_variables : List LocalVariableInfo
deriving DecidableEq, Repr

/-- A method of the symbol file. -/
structure MethodInfo where
  method_def : Nat
  sequence_points : List SequencePoint
  local_scope : List LocalScopeInfo
deriving DecidableEq, Repr

/-- A source document and the methods that map to it. -/
structure DocumentIndex where
  file_path : String
  methods : List MethodInfo
deriving DecidableEq, Repr

/-! ## External collaborators -/

/-- What `IMetaDataImport::GetMethodProps` reports: the result code, the
declaring type (`pClass`), the characters it writes to the name buffer, the
name length (`pchMethod`) and the address of the signature blob. -/
structure MethodProps where
  hr : HRESULT
  type_def : Nat
  name : List Nat
  name_length : Nat
  signature : Nat
deriving DecidableEq, Repr

/-- What `IMetaDataImport::GetTypeDefProps` reports: the result code, the
characters it writes to the name buffer and the name length (`pchTypeDef`). -/
structure TypeDefProps where
  hr : HRESULT
  name : List Nat
  name_length : Nat
deriving DecidableEq, Repr

/-- The metadata import: each query is keyed by a token and by the size of the
name buffer handed in (`0` for the length probe). -/
structure IMetaDataImport where
  GetMethodProps : Nat → Nat → MethodProps
  GetTypeDefProps : Nat → Nat → TypeDefProps

/-- One symbol file: the outcome of `GetDebugModule`, of `GetToken` on that
module (result code and module token), of `GetMetaDataImport`, the
metadata import itself and the document index table. -/
structure PortablePdbFile where
  GetDebugModule : HRESULT
  debug_module_token : HRESULT × Nat
  GetMetaDataImport : HRESULT
  metadata_import : IMetaDataImport
  document_index_table : List DocumentIndex

/-- The mapping quality reported by `ICorDebugILFrame::GetIP`. -/
inductive CorDebugMappingResult where
  | MAPPING_PROLOG
  | MAPPING_EPILOG
  | MAPPING_NO_INFO
  | MAPPING_UNMAPPED_ADDRESS
  | MAPPING_EXACT
  | MAPPING_APPROXIMATE
deriving DecidableEq, Repr

/-- Modelled from the spec: `DbgStackFrame` (dbgstackframe.h is not among the
sources) as the record of what its setters receive: the file, the method name,
the class name, the line number, and the variable list handed to
`DbgStackFrame::Initialize`. A field keeps its previous value until its setter
is called. -/
structure DbgStackFrame where
  file : String
  method : List Nat
  class_name : List Nat
  line_number : Nat
  local_variables : List LocalVariableInfo
deriving DecidableEq, Repr

/-- A frame on which no setter has been called. -/
def DbgStackFrame.fresh : DbgStackFrame :=
  { file := "", method := [], class_name := [], line_number := 0, local_variables := [] }

/-- A live IL frame: the outcome of `GetFunction`, of `GetToken` on the
function, of `GetModule`, of `GetToken` on the module, of `GetIP` (result code,
instruction offset, mapping quality), and the result code with which
`DbgStackFrame::Initialize` binds a list of variables in this frame. -/
structure ICorDebugILFrame where
  GetFunction : HRESULT
  function_token : HRESULT × Nat
  GetModule : HRESULT
  module_token : HRESULT × Nat
  GetIP : HRESULT
  ip_offset : Nat
  mapping_result : CorDebugMappingResult
  bind_variables : List LocalVariableInfo → HRESULT

/-- One position of the stack walk: the outcome of `GetFrame` there, of
`QueryInterface` for the IL frame, the IL frame, and the outcome of `Next`. -/
structure StackWalkPosition where
  GetFrame : HRESULT
  QueryInterface : HRESULT
  il_frame : ICorDebugILFrame
  Next : HRESULT

/-- A stack walk: the positions from the innermost frame outwards. Past the
last position `GetFrame` reports `S_FALSE` (no more frames). -/
abbrev ICorDebugStackWalk := List StackWalkPosition

/-- The calls made on the external collaborators. -/
inductive Call where
  | GetFrame
  | QueryInterface
  | GetFunction
  | FunctionGetToken
  | GetModule
  | ModuleGetToken
  | GetDebugModule
  | PdbModuleGetToken
  | Next
  | GetMetaDataImport
  | GetMethodProps (token : Nat) (buffer_size : Nat)
  | GetTypeDefProps (token : Nat) (buffer_size : Nat)
  | GetIP
  | DbgStackFrameInitialize
deriving DecidableEq, Repr

/-- A call together with the result code it returned. -/
structure Event where
  call : Call
  hr : HRESULT
deriving DecidableEq, Repr

/-! ## `StackFrameCollection::PopulateLocalVarsAndMethodArgs` -/

/-- The content of a zero-initialised name buffer of `size` characters after
the metadata import has written `written` into it. -/
def fillBuffer (size : Nat) (written : List Nat) : List Nat :=
  written.take size ++ List.replicate (size - written.length) 0

/-- The loop over `method.sequence_points` (lines 291-297): `index` is the
loop counter, `position` the running `matching_sequence_point_position`. -/
def sequencePointLoop (ip_offset : Nat) : List SequencePoint → Nat → Int → Int
  | [], _, position => position
  | sp :: rest, index, position =>
    if !sp.is_hidden && decide (sp.il_offset ≤ ip_offset) then
      sequencePointLoop ip_offset rest (index + 1) (max position (index : Int))
    else
      sequencePointLoop ip_offset rest (index + 1) position

/-- The value of `matching_sequence_point_position` after the loop: it starts
at `-1` and the counter at `0`. -/
def matching_sequence_point_position (sequence_points : List SequencePoint)
    (ip_offset : Nat) : Int :=
  sequencePointLoop ip_offset sequence_points 0 (-1)

/-- The sequence point the frame is matched to (lines 302-304): the element at
`matching_sequence_point_position` when that position is not `-1`. -/
def matchedSequencePoint (sequence_points : List SequencePoint) (ip_offset : Nat) :
    Option SequencePoint :=
  let position := matching_sequence_point_position sequence_points ip_offset
  if position ≠ -1 then sequence_points[position.toNat]? else none

/-- The test of lines 309-311 under which a scope is skipped; the sum is a
32-bit unsigned addition. -/
def scopeSkipped (local_scope : LocalScopeInfo) (il_offset : Nat) : Bool :=
  decide (local_scope.start_offset > il_offset) ||
    decide ((local_scope.start_offset + local_scope.length) % 2 ^ 32 < il_offset)

/-- The loop over `method.local_scope` (lines 307-318): the variables of every
scope that is not skipped are appended to `local_variables`. -/
def collectLocalVariables (il_offset : Nat) :
    List LocalScopeInfo → List LocalVariableInfo → List LocalVariableInfo
  | [], local_variables => local_variables
  | local_scope :: rest, local_variables =>
    if scopeSkipped local_scope il_offset then
      collectLocalVariables il_offset rest local_variables
    else
      collectLocalVariables il_offset rest (local_variables ++ local_scope.local_variables)

/-- The variable list built for a matched sequence point, starting from the
empty vector of line 307. -/
def frameLocalVariables (method : MethodInfo) (sequence_point : SequencePoint) :
    List LocalVariableInfo :=
  collectLocalVariables sequence_point.il_offset method.local_scope []

/-- The state in which `PopulateLocalVarsAndMethodArgs` leaves: the result
code, the frame behind `dbg_stack_frame`, and the calls made so far. -/
structure PopulateResult where
  hr : HRESULT
  frame : DbgStackFrame
  trace : List Event
deriving DecidableEq, Repr

/-- Lines 287-324: match the instruction offset to a sequence point and, when
there is one, set the line number and bind the variables of the covering
scopes. The result code of `DbgStackFrame::Initialize` is stored in `hr` and
the function then returns `S_OK`. -/
def matchSequencePoint (il_frame : ICorDebugILFrame) (method : MethodInfo)
    (frame : DbgStackFrame) (trace : List Event) : PopulateResult :=
  match matchedSequencePoint method.sequence_points il_frame.ip_offset with
  | some sequence_point =>
    let local_variables := frameLocalVariables method sequence_point
    { hr := S_OK
      frame := { frame with line_number := sequence_point.start_line,
                            local_variables := local_variables }
      trace := trace ++ [⟨Call.DbgStackFrameInitialize, il_frame.bind_variables local_variables⟩] }
  | none => { hr := S_OK, frame := frame, trace := trace }

/-- Lines 245-324: the body run for the method whose signature matched.
`type_def` is the value the last `GetMethodProps` call left in the variable. -/
def resolveMatchedMethod (il_frame : ICorDebugILFrame) (metadata_import : IMetaDataImport)
    (method_name : List Nat) (type_def : Nat) (document_index : DocumentIndex)
    (method : MethodInfo) (frame : DbgStackFrame) (trace : List Event) : PopulateResult :=
  let class_probe := metadata_import.GetTypeDefProps type_def 0
  let trace := trace ++ [⟨Call.GetTypeDefProps type_def 0, class_probe.hr⟩]
  if FAILED class_probe.hr then { hr := class_probe.hr, frame := frame, trace := trace } else
  let class_fetch := metadata_import.GetTypeDefProps type_def class_probe.name_length
  let class_name := fillBuffer class_probe.name_length class_fetch.name
  let trace := trace ++ [⟨Call.GetTypeDefProps type_def class_probe.name_length, class_fetch.hr⟩]
  if FAILED class_fetch.hr then { hr := class_fetch.hr, frame := frame, trace := trace } else
  let frame := { frame with file := document_index.file_path, method := method_name,
                            class_name := class_name }
  let trace := trace ++ [⟨Call.GetIP, il_frame.GetIP⟩]
  if FAILED il_frame.GetIP then { hr := il_frame.GetIP, frame := frame, trace := trace } else
  if il_frame.mapping_result = CorDebugMappingResult.MAPPING_NO_INFO ∨
      il_frame.mapping_result = CorDebugMappingResult.MAPPING_UNMAPPED_ADDRESS then
    { hr := S_FALSE, frame := frame, trace := trace }
  else
    matchSequencePoint il_frame method frame trace

/-- How one iteration of a loop ends: it goes on to the next element (with the
calls made so far), or the enclosing function returns. -/
inductive LoopStep where
  | next (trace : List Event)
  | ret (result : PopulateResult)
deriving DecidableEq, Repr

/-- The loop over the methods of one document (lines 227-325). -/
def methodLoop (il_frame : ICorDebugILFrame) (metadata_import : IMetaDataImport)
    (method_name : List Nat) (target_method_signature : Nat) (document_index : DocumentIndex)
    (frame : DbgStackFrame) : List MethodInfo → List Event → LoopStep
  | [], trace => LoopStep.next trace
  | method :: rest, trace =>
    let props := metadata_import.GetMethodProps method.method_def 0
    let trace := trace ++ [⟨Call.GetMethodProps method.method_def 0, props.hr⟩]
    if FAILED props.hr then LoopStep.ret { hr := props.hr, frame := frame, trace := trace } else
    if props.signature ≠ target_method_signature then
      methodLoop il_frame metadata_import method_name target_method_signature document_index
        frame rest trace
    else
      LoopStep.ret (resolveMatchedMethod il_frame metadata_import method_name props.type_def
        document_index method frame trace)

/-- The loop over the documents of the symbol file (lines 226-328). -/
def documentLoop (il_frame : ICorDebugILFrame) (metadata_import : IMetaDataImport)
    (method_name : List Nat) (target_method_signature : Nat) (frame : DbgStackFrame) :
    List DocumentIndex → List Event → PopulateResult
  | [], trace => { hr := S_FALSE, frame := frame, trace := trace }
  | document_index :: rest, trace =>
    match methodLoop il_frame metadata_import method_name target_method_signature
        document_index frame document_index.methods trace with
    | LoopStep.ret result => result
    | LoopStep.next trace =>
      documentLoop il_frame metadata_import method_name target_method_signature frame rest trace

/-- Lines 192-329: the function body once both pointers are known to be
non-null. The result code of `GetMetaDataImport` is overwritten by the next
call without being tested. -/
def populateBody (target_function_token : Nat) (frame : DbgStackFrame)
    (il_frame : ICorDebugILFrame) (pdb_file : PortablePdbFile) : PopulateResult :=
  let metadata_import := pdb_file.metadata_import
  let trace := [(⟨Call.GetMetaDataImport, pdb_file.GetMetaDataImport⟩ : Event)]
  let probe := metadata_import.GetMethodProps target_function_token 0
  let trace := trace ++ [⟨Call.GetMethodProps target_function_token 0, probe.hr⟩]
  if FAILED probe.hr then { hr := probe.hr, frame := frame, trace := trace } else
  let fetch := metadata_import.GetMethodProps target_function_token probe.name_length
  let method_name := fillBuffer probe.name_length fetch.name
  let trace := trace ++ [⟨Call.GetMethodProps target_function_token probe.name_length, fetch.hr⟩]
  if FAILED fetch.hr then { hr := fetch.hr, frame := frame, trace := trace } else
  documentLoop il_frame metadata_import method_name fetch.signature frame
    pdb_file.document_index_table trace

/-- What the caller of `PopulateLocalVarsAndMethodArgs` observes: the result
code, the frame behind `dbg_stack_frame` (none for a null pointer) and the
calls that were made. -/
structure PopulateOutcome where
  hr : HRESULT
  frame : Option DbgStackFrame
  trace : List Event
deriving DecidableEq, Repr

/-- The function `StackFrameCollection::PopulateLocalVarsAndMethodArgs`; a
null pointer is `none`. -/
def PopulateLocalVarsAndMethodArgs (target_function_token : Nat)
    (dbg_stack_frame : Option DbgStackFrame) (il_frame : Option ICorDebugILFrame)
    (pdb_file : PortablePdbFile) : PopulateOutcome :=
  match dbg_stack_frame, il_frame with
  | some frame, some il =>
    let result := populateBody target_function_token frame il pdb_file
    { hr := result.hr, frame := some result.frame, trace := result.trace }
  | _, _ => { hr := E_INVALIDARG, frame := dbg_stack_frame, trace := [] }

/-! ## `StackFrameCollection::Initialize` -/

/-- How the loop over `pdb_files` ends for one live frame: `Initialize`
returns `hr` from inside the loop, or the loop is left (after a `break` with the
frame that was pushed, or at its end with none) and the walk goes on. -/
inductive PdbLoopResult where
  | ret (hr : HRESULT) (trace : List Event)
  | done (pushed : Option DbgStackFrame) (trace : List Event)
deriving DecidableEq, Repr

/-- The loop over `pdb_files` (lines 99-139). `stack_frame` is the local of
line 97, which every call of `PopulateLocalVarsAndMethodArgs` may change. -/
def pdbLoop (target_function_token target_module_token : Nat) (il_frame : ICorDebugILFrame)
    (stack_frame : DbgStackFrame) : List PortablePdbFile → List Event → PdbLoopResult
  | [], trace => PdbLoopResult.done none trace
  | pdb_file :: rest, trace =>
    let trace := trace ++ [⟨Call.GetDebugModule, pdb_file.GetDebugModule⟩]
    if FAILED pdb_file.GetDebugModule then PdbLoopResult.ret pdb_file.GetDebugModule trace else
    let trace := trace ++ [⟨Call.PdbModuleGetToken, pdb_file.debug_module_token.1⟩]
    if FAILED pdb_file.debug_module_token.1 then
      PdbLoopResult.ret pdb_file.debug_module_token.1 trace
    else
    if target_module_token ≠ pdb_file.debug_module_token.2 then
      pdbLoop target_function_token target_module_token il_frame stack_frame rest trace
    else
    let outcome := PopulateLocalVarsAndMethodArgs target_function_token (some stack_frame)
      (some il_frame) pdb_file
    let stack_frame := outcome.frame.getD stack_frame
    let trace := trace ++ outcome.trace
    if outcome.hr = S_FALSE then
      pdbLoop target_function_token target_module_token il_frame stack_frame rest trace
    else
    if FAILED outcome.hr then PdbLoopResult.ret outcome.hr trace else
    PdbLoopResult.done (some stack_frame) trace

/-- What `Initialize` leaves behind: the result code, the vector
`stack_frames_` and the calls that were made, in order. -/
structure InitializeResult where
  hr : HRESULT
  stack_frames_ : List DbgStackFrame
  trace : List Event
deriving DecidableEq, Repr

/-- Lines 58-139 for one position of the walk, after `GetFrame` has succeeded:
the calls on the frame, then the loop over the symbol files. -/
def framePdbLoop (pdb_files : List PortablePdbFile) (position : StackWalkPosition)
    (trace : List Event) : PdbLoopResult :=
  let il_frame := position.il_frame
  let trace := trace ++ [⟨Call.QueryInterface, position.QueryInterface⟩]
  if FAILED position.QueryInterface then PdbLoopResult.ret position.QueryInterface trace else
  let trace := trace ++ [⟨Call.GetFunction, il_frame.GetFunction⟩]
  if FAILED il_frame.GetFunction then PdbLoopResult.ret il_frame.GetFunction trace else
  let trace := trace ++ [⟨Call.FunctionGetToken, il_frame.function_token.1⟩]
  if FAILED il_frame.function_token.1 then PdbLoopResult.ret il_frame.function_token.1 trace else
  let trace := trace ++ [⟨Call.GetModule, il_frame.GetModule⟩]
  if FAILED il_frame.GetModule then PdbLoopResult.ret il_frame.GetModule trace else
  let trace := trace ++ [⟨Call.ModuleGetToken, il_frame.module_token.1⟩]
  if FAILED il_frame.module_token.1 then PdbLoopResult.ret il_frame.module_token.1 trace else
  pdbLoop il_frame.function_token.2 il_frame.module_token.2 il_frame DbgStackFrame.fresh
    pdb_files trace

/-- The `while` loop of lines 46-148, by recursion on the positions that are
left in the walk. -/
def walkLoop (pdb_files : List PortablePdbFile) :
    ICorDebugStackWalk → List DbgStackFrame → List Event → InitializeResult
  | [], stack_frames_, trace =>
    { hr := S_OK, stack_frames_ := stack_frames_, trace := trace ++ [⟨Call.GetFrame, S_FALSE⟩] }
  | position :: rest, stack_frames_, trace =>
    let trace := trace ++ [⟨Call.GetFrame, position.GetFrame⟩]
    if position.GetFrame = S_FALSE then
      { hr := S_OK, stack_frames_ := stack_frames_, trace := trace }
    else
    if FAILED position.GetFrame then
      { hr := position.GetFrame, stack_frames_ := stack_frames_, trace := trace }
    else
    match framePdbLoop pdb_files position trace with
    | PdbLoopResult.ret hr trace => { hr := hr, stack_frames_ := stack_frames_, trace := trace }
    | PdbLoopResult.done pushed trace =>
      let stack_frames_ := stack_frames_ ++ pushed.toList
      let trace := trace ++ [⟨Call.Next, position.Next⟩]
      if SUCCEEDED position.Next then walkLoop pdb_files rest stack_frames_ trace
      else { hr := position.Next, stack_frames_ := stack_frames_, trace := trace }

/-- The function `StackFrameCollection::Initialize`; a null `debug_stack_walk`
is `none`, and `stack_frames_` is the vector as it is on entry. -/
def StackFrameCollection.Initialize (debug_stack_walk : Option ICorDebugStackWalk)
    (pdb_files : List PortablePdbFile) (stack_frames_ : List DbgStackFrame) :
    InitializeResult :=
  match debug_stack_walk with
  | none => { hr := E_INVALIDARG, stack_frames_ := stack_frames_, trace := [] }
  | some walk => walkLoop pdb_files walk stack_frames_ []

/-! ## `StackFrameCollection::PrintStackFrames` -/

/-- Modelled from the spec: the conversion of a name held as wide characters to
a string (the helper is not among the sources): the characters before the
first null. -/
def wideToString (wide : List Nat) : String :=
  String.mk ((wide.takeWhile (fun c => c ≠ 0)).map Char.ofNat)

/-- Modelled from the spec: `DbgStackFrame::GetClass`, the class name given to
`SetClass`, as a string. -/
def DbgStackFrame.GetClass (frame : DbgStackFrame) : String :=
  wideToString frame.class_name

/-- Modelled from the spec: `DbgStackFrame::GetMethod`, the method name given
to `SetMethod`, as a string. -/
def DbgStackFrame.GetMethod (frame : DbgStackFrame) : String :=
  wideToString frame.method

/-- Modelled from the spec: `DbgStackFrame::GetLineNumber`, the line given to
`SetLineNumber`. -/
def DbgStackFrame.GetLineNumber (frame : DbgStackFrame) : Nat :=
  frame.line_number

/-- Modelled from the spec: `DbgStackFrame::GetFile`, the path given to
`SetFile`. -/
def DbgStackFrame.GetFile (frame : DbgStackFrame) : String :=
  frame.file

/-- An evaluated variable of an emitted frame. -/
structure Variable where
  name : String
  value : String
deriving DecidableEq, Repr

/-- The `SourceLocation` message: a path and a line. -/
structure SourceLocation where
  path : String
  line : Nat
deriving DecidableEq, Repr

/-- The `StackFrame` message emitted for one frame: the qualified method name,
the location (absent until it is first asked for) and the variables. -/
structure StackFrame where
  method_name : String
  location : Option SourceLocation
  locals : List Variable
deriving DecidableEq, Repr

/-- The `Breakpoint` message, of which only the identifier and the repeated
`stack_frames` field matter here. -/
structure Breakpoint where
  id : String
  stack_frames : List StackFrame
deriving DecidableEq, Repr

/-- The message `add_stack_frames` appends: every field at its default. -/
def StackFrame.empty : StackFrame :=
  { method_name := "", location := none, locals := [] }

/-- The accessor `mutable_location` of the message: the location of the
record, created with default fields when the record has none. The generated
accessor never returns null; `none` stands for the null pointer the code tests
for. -/
def StackFrame.mutable_location (frame : StackFrame) : Option SourceLocation :=
  some (frame.location.getD { path := "", line := 0 })

/-- Modelled from the spec: the evaluation coordinator together with
`DbgStackFrame::PopulateStackFrame` (evalcoordinator.h and dbgstackframe.cc are
not among the sources). `PopulateStackFrame` evaluates the variables of a
stored frame with the coordinator: it reports a result code and the variables
it adds to the record, whose method name and location it leaves as they
are. -/
structure EvalCoordinator where
  PopulateStackFrame : DbgStackFrame → HRESULT × List Variable

/-- The calls `PrintStackFrames` makes on the coordinator, on the breakpoint
message and on the stored frames. -/
inductive PrintCall where
  | WaitForReadySignal
  | add_stack_frames
  | PopulateStackFrame (hr : HRESULT)
  | SignalFinishedPrintingVariable
deriving DecidableEq, Repr

/-- How the loop over `stack_frames_` ends: with the code of the `return hr`
inside it, if that was taken, the breakpoint message and the calls made. -/
structure PrintLoopResult where
  returned : Option HRESULT
  breakpoint : Breakpoint
  trace : List PrintCall
deriving DecidableEq, Repr

/-- The breakpoint message with `frame` as its last stack frame. -/
def Breakpoint.withFrame (breakpoint : Breakpoint) (frame : StackFrame) : Breakpoint :=
  { breakpoint with stack_frames := breakpoint.stack_frames ++ [frame] }

/-- The loop over `stack_frames_` (lines 161-178). The record that
`add_stack_frames` appends is filled in place; it is shown here as appended in
its final state for the iteration. -/
def printLoop (eval_coordinator : EvalCoordinator) :
    List DbgStackFrame → Breakpoint → List PrintCall → PrintLoopResult
  | [], breakpoint, trace => { returned := none, breakpoint := breakpoint, trace := trace }
  | dbg_stack_frame :: rest, breakpoint, trace =>
    let trace := trace ++ [PrintCall.add_stack_frames]
    let frame : StackFrame :=
      { StackFrame.empty with
        method_name := dbg_stack_frame.GetClass ++ "." ++ dbg_stack_frame.GetMethod }
    match frame.mutable_location with
    | none => printLoop eval_coordinator rest (breakpoint.withFrame frame) trace
    | some frame_location =>
      let frame_location := { frame_location with line := dbg_stack_frame.GetLineNumber }
      let frame_location := { frame_location with path := dbg_stack_frame.GetFile }
      let frame := { frame with location := some frame_location }
      let outcome := eval_coordinator.PopulateStackFrame dbg_stack_frame
      let frame := { frame with locals := frame.locals ++ outcome.2 }
      let trace := trace ++ [PrintCall.PopulateStackFrame outcome.1]
      if FAILED outcome.1 then
        { returned := some outcome.1, breakpoint := breakpoint.withFrame frame, trace := trace }
      else printLoop eval_coordinator rest (breakpoint.withFrame frame) trace

/-- What `PrintStackFrames` leaves behind: the result code, the breakpoint
message (none for a null pointer) and the calls that were made, in order. -/
structure PrintResult where
  hr : HRESULT
  breakpoint : Option Breakpoint
  trace : List PrintCall
deriving DecidableEq, Repr

/-- The function `StackFrameCollection::PrintStackFrames`; a null pointer is
`none`, and `stack_frames_` is the vector of stored frames. -/
def StackFrameCollection.PrintStackFrames (breakpoint : Option Breakpoint)
    (eval_coordinator : Option EvalCoordinator) (stack_frames_ : List DbgStackFrame) :
    PrintResult :=
  match breakpoint, eval_coordinator with
  | some message, some coordinator =>
    let result := printLoop coordinator stack_frames_ message [PrintCall.WaitForReadySignal]
    match result.returned with
    | some hr => { hr := hr, breakpoint := some result.breakpoint, trace := result.trace }
    | none =>
      { hr := S_OK, breakpoint := some result.breakpoint,
        trace := result.trace ++ [PrintCall.SignalFinishedPrintingVariable] }
  | _, _ => { hr := E_INVALIDARG, breakpoint := breakpoint, trace := [] }

/-! ## Vocabulary of the properties -/

/-- The scopes that cover offset `o` as the half-open interval
`start_offset <= o < start_offset + length` reads, the sum being within the
32-bit range. -/
def scopeCovers (o : Nat) (local_scope : LocalScopeInfo) : Bool :=
  decide (local_scope.start_offset ≤ o) &&
    decide (o < local_scope.start_offset + local_scope.length) &&
    decide (local_scope.start_offset + local_scope.length < 2 ^ 32)

/-- The calls the stack walk itself makes on the native debugging interface:
those of `Initialize`, as opposed to the metadata queries, `GetIP` and the
binding of the variables, which `PopulateLocalVarsAndMethodArgs` makes. -/
def Call.isStackWalkCall : Call → Bool
  | Call.GetFrame => true
  | Call.QueryInterface => true
  | Call.GetFunction => true
  | Call.FunctionGetToken => true
  | Call.GetModule => true
  | Call.ModuleGetToken => true
  | Call.GetDebugModule => true
  | Call.PdbModuleGetToken => true
  | Call.Next => true
  | _ => false

/-- No call of the stack walk recorded in the trace has failed. -/
def NoWalkFailure (trace : List Event) : Prop :=
  ∀ e ∈ trace, e.call.isStackWalkCall = true → 0 ≤ e.hr

/-- A failed call of the stack walk can only be the last call of the trace, and
then `hr` is its result code. -/
def FailureEndsTrace (hr : HRESULT) (trace : List Event) : Prop :=
  ∀ (before after : List Event) (e : Event), trace = before ++ e :: after →
    e.call.isStackWalkCall = true → e.hr < 0 → after = [] ∧ hr = e.hr

/-- The frame the loop over the symbol files pushed, if it pushed one. -/
def PdbLoopResult.pushed : PdbLoopResult → Option DbgStackFrame
  | PdbLoopResult.ret _ _ => none
  | PdbLoopResult.done pushed _ => pushed

/-- The code with which `Initialize` returns from inside the loop over the
symbol files, if it does. -/
def PdbLoopResult.returned : PdbLoopResult → Option HRESULT
  | PdbLoopResult.ret hr _ => some hr
  | PdbLoopResult.done _ _ => none

/-- The entry that the walk adds to `stack_frames_` for one position, if it
adds one. -/
def frameEntry (pdb_files : List PortablePdbFile) (position : StackWalkPosition) :
    Option DbgStackFrame :=
  (framePdbLoop pdb_files position []).pushed

/-- The calls of the walk at one position succeed, and `GetFrame` reports a
frame there. -/
def StackWalkPosition.callsSucceed (position : StackWalkPosition) : Prop :=
  position.GetFrame ≠ S_FALSE ∧ 0 ≤ position.GetFrame ∧ 0 ≤ position.QueryInterface ∧
  0 ≤ position.il_frame.GetFunction ∧ 0 ≤ position.il_frame.function_token.1 ∧
  0 ≤ position.il_frame.GetModule ∧ 0 ≤ position.il_frame.module_token.1 ∧
  0 ≤ position.Next

/-- The calls of the walk on one symbol file succeed. -/
def PortablePdbFile.callsSucceed (pdb_file : PortablePdbFile) : Prop :=
  0 ≤ pdb_file.GetDebugModule ∧ 0 ≤ pdb_file.debug_module_token.1

/-- The signature the metadata import reports for the live method token, as
the second `GetMethodProps` call leaves it in `target_method_signature`. -/
def liveSignature (metadata_import : IMetaDataImport) (token : Nat) : Nat :=
  (metadata_import.GetMethodProps token
    (metadata_import.GetMethodProps token 0).name_length).signature

/-- The name the metadata import gives for method `token`: the length probe,
then the fetch into a buffer of that length. -/
def methodNameOf (metadata_import : IMetaDataImport) (token : Nat) : List Nat :=
  fillBuffer (metadata_import.GetMethodProps token 0).name_length
    (metadata_import.GetMethodProps token
      (metadata_import.GetMethodProps token 0).name_length).name

/-- The name the metadata import gives for type `type_def`: the length probe,
then the fetch into a buffer of that length. -/
def typeNameOf (metadata_import : IMetaDataImport) (type_def : Nat) : List Nat :=
  fillBuffer (metadata_import.GetTypeDefProps type_def 0).name_length
    (metadata_import.GetTypeDefProps type_def
      (metadata_import.GetTypeDefProps type_def 0).name_length).name

/-- Every metadata query that resolving the live method `token` against the
symbol file can make succeeds: those on the live token, the one on each
method of the file, and those on the declaring type of each method, whatever
the size of the name buffer. -/
def metadataQueriesSucceed (pdb_file : PortablePdbFile) (token : Nat) : Prop :=
  (∀ size, 0 ≤ (pdb_file.metadata_import.GetMethodProps token size).hr) ∧
  (∀ doc ∈ pdb_file.document_index_table, ∀ m ∈ doc.methods,
    0 ≤ (pdb_file.metadata_import.GetMethodProps m.method_def 0).hr ∧
    ∀ size, 0 ≤ (pdb_file.metadata_import.GetTypeDefProps
      (pdb_file.metadata_import.GetMethodProps m.method_def 0).type_def size).hr)

/-- No call recorded in the trace is a call of the stack walk itself. -/
def OnlyPopulateCalls (trace : List Event) : Prop :=
  ∀ e ∈ trace, e.call.isStackWalkCall = false

instance (position : StackWalkPosition) : Decidable position.callsSucceed := by
  unfold StackWalkPosition.callsSucceed
  infer_instance

instance (pdb_file : PortablePdbFile) : Decidable pdb_file.callsSucceed := by
  unfold PortablePdbFile.callsSucceed
  infer_instance

/-- The frame after `SetFile`, `SetMethod` and `SetClass` (lines 267-269) for
a method of `document_index` declared in `type_def`. -/
def namedFrame (metadata_import : IMetaDataImport) (method_name : List Nat) (type_def : Nat)
    (document_index : DocumentIndex) (frame : DbgStackFrame) : DbgStackFrame :=
  { frame with file := document_index.file_path, method := method_name,
               class_name := typeNameOf metadata_import type_def }

/-- The mapping quality is one of the two for which the frame cannot be shown. -/
def unmapped (mapping_result : CorDebugMappingResult) : Prop :=
  mapping_result = CorDebugMappingResult.MAPPING_NO_INFO ∨
    mapping_result = CorDebugMappingResult.MAPPING_UNMAPPED_ADDRESS

instance (mapping_result : CorDebugMappingResult) : Decidable (unmapped mapping_result) := by
  unfold unmapped
  infer_instance

/-- The call `GetIP` is among the calls recorded in the trace. -/
def callsGetIP (trace : List Event) : Prop :=
  ∃ e ∈ trace, e.call = Call.GetIP

/-- The record `PrintStackFrames` is to emit for a stored frame: the class
name, a dot and the method name; the file and the line of the frame; and the
variables `PopulateStackFrame` adds. -/
def emittedRecord (eval_coordinator : EvalCoordinator) (frame : DbgStackFrame) : StackFrame :=
  { method_name := frame.GetClass ++ "." ++ frame.GetMethod,
    location := some { path := frame.GetFile, line := frame.GetLineNumber },
    locals := (eval_coordinator.PopulateStackFrame frame).2 }

/-- The calls made for one stored frame that is populated: the record is
added, then `PopulateStackFrame` runs on it. -/
def frameCalls (eval_coordinator : EvalCoordinator) (frame : DbgStackFrame) : List PrintCall :=
  [PrintCall.add_stack_frames,
    PrintCall.PopulateStackFrame (eval_coordinator.PopulateStackFrame frame).1]

/-- The calls of the loop over the stored frames: neither of the two signals
is among them. -/
def LoopCallsOnly (calls : List PrintCall) : Prop :=
  ∀ c ∈ calls, c ≠ PrintCall.WaitForReadySignal ∧
    c ≠ PrintCall.SignalFinishedPrintingVariable

/-- The signature the metadata import reports for the method of the symbol
file equals `signature`. -/
def signatureMatches (metadata_import : IMetaDataImport) (signature : Nat)
    (method : MethodInfo) : Bool :=
  decide ((metadata_import.GetMethodProps method.method_def 0).signature = signature)

/-- The first method whose signature equals `signature`, with its document:
the documents are taken in the order of the table and the methods of a
document in their order. -/
def firstMatchingMethod (metadata_import : IMetaDataImport) (signature : Nat) :
    List DocumentIndex → Option (DocumentIndex × MethodInfo)
  | [] => none
  | document_index :: rest =>
    match document_index.methods.find? (signatureMatches metadata_import signature) with
    | some method => some (document_index, method)
    | none => firstMatchingMethod metadata_import signature rest

/-- The queries of the method lookup succeed: those on the live token,
whatever the size of the name buffer, and the one on each method of the symbol
file. -/
def lookupQueriesSucceed (pdb_file : PortablePdbFile) (token : Nat) : Prop :=
  (∀ size, 0 ≤ (pdb_file.metadata_import.GetMethodProps token size).hr) ∧
  ∀ doc ∈ pdb_file.document_index_table, ∀ m ∈ doc.methods,
    0 ≤ (pdb_file.metadata_import.GetMethodProps m.method_def 0).hr

/-! ## Sample data -/

/-- A non-hidden sequence point at `il_offset` starting on `start_line`. -/
def samplePoint (il_offset start_line : Nat) : SequencePoint :=
  { start_line := start_line, end_line := start_line, start_col := 1, end_col := 2,
    il_offset := il_offset, is_hidden := false }

/-- Sequence points at offsets `0x0`, `0x10` and `0x20`, none hidden. -/
def threePoints : List SequencePoint :=
  [samplePoint 0x0 10, samplePoint 0x10 11, samplePoint 0x20 12]

/-- Sequence points at `0x0` (visible) and `0x10` (hidden). -/
def hiddenNearest : List SequencePoint :=
  [samplePoint 0x0 10, { samplePoint 0x10 11 with is_hidden := true }]

/-- Sequence points whose only member is hidden. -/
def onlyHidden : List SequencePoint :=
  [{ samplePoint 0x0 10 with is_hidden := true }]

/-- A variable named `name` in slot `slot`. -/
def sampleVariable (name : String) (slot : Nat) : LocalVariableInfo :=
  { name := name, slot := slot }

/-- The scope `[0x0, 0x30)` owning `x` and the disjoint scope `[0x40, 0x50)`
owning `y`. -/
def twoScopes : List LocalScopeInfo :=
  [{ start_offset := 0x0, length := 0x30, local_variables := [sampleVariable "x" 0] },
   { start_offset := 0x40, length := 0x10, local_variables := [sampleVariable "y" 1] }]

/-- The scope `[0x0, 0x30)` and the scope `[0x8, 0x20)` nested in it, both
owning `x`. -/
def nestedScopes : List LocalScopeInfo :=
  [{ start_offset := 0x0, length := 0x30, local_variables := [sampleVariable "x" 0] },
   { start_offset := 0x8, length := 0x18, local_variables := [sampleVariable "x" 0] }]

/-- A scope `[0x0, 0x10)`, which ends exactly at offset `0x10`, owning `z`. -/
def endingScope : List LocalScopeInfo :=
  [{ start_offset := 0x0, length := 0x10, local_variables := [sampleVariable "z" 2] }]

/-- A method with token `0x06000001`, the given sequence points and scopes. -/
def sampleMethod (sequence_points : List SequencePoint) (local_scope : List LocalScopeInfo) :
    MethodInfo :=
  { method_def := 0x06000001, sequence_points := sequence_points, local_scope := local_scope }

/-- A live IL frame of function `0x06000001` in module `1` on which every call
succeeds, stopped at `ip_offset` with the given mapping quality. -/
def sampleILFrame (ip_offset : Nat) (mapping_result : CorDebugMappingResult) :
    ICorDebugILFrame :=
  { GetFunction := S_OK, function_token := (S_OK, 0x06000001), GetModule := S_OK,
    module_token := (S_OK, 1), GetIP := S_OK, ip_offset := ip_offset,
    mapping_result := mapping_result, bind_variables := fun _ => S_OK }

/-- A metadata import that knows two methods with the same signature blob
(address `0x1000`): `0x06000001`, named `M` and declared in type `0x02000002`
(named `A`), and `0x06000002`, named `N` and declared in type `0x02000003`
(named `B`). Every other query fails. -/
def sampleImport : IMetaDataImport :=
  { GetMethodProps := fun token buffer_size =>
      if token = 0x06000001 then
        { hr := S_OK, type_def := 0x02000002, name := [77, 0].take buffer_size,
          name_length := 2, signature := 0x1000 }
      else if token = 0x06000002 then
        { hr := S_OK, type_def := 0x02000003, name := [78, 0].take buffer_size,
          name_length := 2, signature := 0x1000 }
      else { hr := E_FAIL, type_def := 0, name := [], name_length := 0, signature := 0 }
    GetTypeDefProps := fun token buffer_size =>
      if token = 0x02000002 then
        { hr := S_OK, name := [65, 0].take buffer_size, name_length := 2 }
      else if token = 0x02000003 then
        { hr := S_OK, name := [66, 0].take buffer_size, name_length := 2 }
      else { hr := E_FAIL, name := [], name_length := 0 } }

/-- A symbol file of module `module_token` on which every call succeeds, with
the single document `Foo.cs` holding `methods`. -/
def samplePdb (module_token : Nat) (methods : List MethodInfo) : PortablePdbFile :=
  { GetDebugModule := S_OK, debug_module_token := (S_OK, module_token),
    GetMetaDataImport := S_OK, metadata_import := sampleImport,
    document_index_table := [{ file_path := "Foo.cs", methods := methods }] }

/-- A position of the walk at which every call succeeds. -/
def samplePosition (il_frame : ICorDebugILFrame) : StackWalkPosition :=
  { GetFrame := S_OK, QueryInterface := S_OK, il_frame := il_frame, Next := S_OK }

/-- A walk over three frames on which every call succeeds: the first and the
third belong to module `1`, the second, stopped at `0x25`, to module `2`. -/
def threeFrameWalk : ICorDebugStackWalk :=
  [samplePosition (sampleILFrame 0x15 CorDebugMappingResult.MAPPING_EXACT),
   samplePosition { sampleILFrame 0x25 CorDebugMappingResult.MAPPING_EXACT with
     module_token := (S_OK, 2) },
   samplePosition (sampleILFrame 0x5 CorDebugMappingResult.MAPPING_APPROXIMATE)]

/-- The symbol file of module `1`, with `Foo.cs` holding the method
`0x06000001`. -/
def loadedPdbs : List PortablePdbFile :=
  [samplePdb 1 [sampleMethod threePoints twoScopes]]

/-- A walk of two frames of module `1`: for the first, `GetIP` succeeds with
`MAPPING_UNMAPPED_ADDRESS`; the second is mapped exactly at `0x15`. -/
def unmappedThenMapped : ICorDebugStackWalk :=
  [samplePosition (sampleILFrame 0x15 CorDebugMappingResult.MAPPING_UNMAPPED_ADDRESS),
   samplePosition (sampleILFrame 0x15 CorDebugMappingResult.MAPPING_EXACT)]

/-- A live IL frame like `sampleILFrame` in which `DbgStackFrame::Initialize`
fails with `E_FAIL` whatever the variables. -/
def failingBindFrame : ICorDebugILFrame :=
  { sampleILFrame 0x15 CorDebugMappingResult.MAPPING_EXACT with
    bind_variables := fun _ => E_FAIL }

/-- A symbol file like `samplePdb` whose `GetMetaDataImport` fails with
`E_FAIL`. -/
def failingImportPdb : PortablePdbFile :=
  { samplePdb 1 [sampleMethod threePoints twoScopes] with GetMetaDataImport := E_FAIL }

/-- A walk of two frames in which `GetFunction` fails with `E_FAIL` on the
first. -/
def failingWalk : ICorDebugStackWalk :=
  [samplePosition { sampleILFrame 0x15 CorDebugMappingResult.MAPPING_EXACT with
     GetFunction := E_FAIL },
   samplePosition (sampleILFrame 0x15 CorDebugMappingResult.MAPPING_EXACT)]

/-- A coordinator with which `PopulateStackFrame` succeeds on every frame and
adds one variable per local of the frame. -/
def sampleCoordinator : EvalCoordinator :=
  { PopulateStackFrame := fun frame =>
      (S_OK, frame.local_variables.map (fun v => { name := v.name, value := "0" })) }

/-- A coordinator with which `PopulateStackFrame` fails with `E_FAIL` on the
frames of line `11` and succeeds on the others. -/
def failingCoordinator : EvalCoordinator :=
  { PopulateStackFrame := fun frame =>
      if frame.line_number = 11 then (E_FAIL, []) else (S_OK, []) }

/-- Two stored frames: `A.M` at `Foo.cs:10` and `B.N` at `Bar.cs:11`. -/
def storedFrames : List DbgStackFrame :=
  [{ file := "Foo.cs", method := [77, 0], class_name := [65, 0], line_number := 10,
     local_variables := [sampleVariable "x" 0] },
   { file := "Bar.cs", method := [78, 0], class_name := [66, 0], line_number := 11,
     local_variables := [] }]

/-- A breakpoint message without stack frames. -/
def sampleBreakpoint : Breakpoint :=
  { id := "bp-1", stack_frames := [] }

/-- A metadata import like `sampleImport` that also knows the method
`0x06000003`, named `P`, declared in type `A`, with another signature blob
(address `0x2000`). -/
def threeMethodImport : IMetaDataImport :=
  { GetMethodProps := fun token buffer_size =>
      if token = 0x06000003 then
        { hr := S_OK, type_def := 0x02000002, name := [80, 0].take buffer_size,
          name_length := 2, signature := 0x2000 }
      else sampleImport.GetMethodProps token buffer_size
    GetTypeDefProps := sampleImport.GetTypeDefProps }

/-- A symbol file of module `1` with two documents: `Bar.cs` holds the method
`0x06000003`, `Foo.cs` holds `0x06000001` and then `0x06000002`, which have the
same signature. -/
def twoDocumentPdb : PortablePdbFile :=
  { GetDebugModule := S_OK, debug_module_token := (S_OK, 1), GetMetaDataImport := S_OK,
    metadata_import := threeMethodImport,
    document_index_table :=
      [{ file_path := "Bar.cs",
         methods := [{ sampleMethod threePoints twoScopes with method_def := 0x06000003 }] },
       { file_path := "Foo.cs",
         methods := [sampleMethod threePoints twoScopes,
           { sampleMethod threePoints twoScopes with method_def := 0x06000002 }] }] }

/-- A symbol file of module `1` whose only method, `0x06000003`, has another
signature than the live method `0x06000001`. -/
def otherSignaturePdb : PortablePdbFile :=
  { twoDocumentPdb with
    document_index_table :=
      [{ file_path := "Bar.cs",
         methods := [{ sampleMethod threePoints twoScopes with method_def := 0x06000003 }] }] }

/-! # Properties -/

/-! ## Sequence-point matching -/

/-- The loop leaves the largest index of a qualifying (non-hidden, at or before
the instruction offset) sequence point, counted from `index`, or the initial
position when there is none. -/
theorem sequencePointLoop_spec (ip_offset : Nat) :
    ∀ (sps : List SequencePoint) (index : Nat) (position : Int),
      position ≤ sequencePointLoop ip_offset sps index position ∧
      (sequencePointLoop ip_offset sps index position = position ∨
        ∃ (j : Nat) (sp : SequencePoint), sps[j]? = some sp ∧
          sequencePointLoop ip_offset sps index position = ((index + j : Nat) : Int) ∧
          sp.is_hidden = false ∧ sp.il_offset ≤ ip_offset) ∧
      ∀ (j : Nat) (sp : SequencePoint), sps[j]? = some sp → sp.is_hidden = false → sp.il_offset ≤ ip_offset →
        ((index + j : Nat) : Int) ≤ sequencePointLoop ip_offset sps index position := by
  intro sps
  induction sps with
  | nil =>
    intro index position
    simp [sequencePointLoop]
  | cons sp rest ih =>
    intro index position
    by_cases hq : (!sp.is_hidden && decide (sp.il_offset ≤ ip_offset)) = true
    · have hstep : sequencePointLoop ip_offset (sp :: rest) index position =
          sequencePointLoop ip_offset rest (index + 1) (max position (index : Int)) := by
        simp only [sequencePointLoop, hq, if_true]
      obtain ⟨h1, h2, h3⟩ := ih (index + 1) (max position (index : Int))
      have hq2 : sp.is_hidden = false ∧ sp.il_offset ≤ ip_offset := by
        simpa using hq
      rw [hstep]
      refine ⟨le_trans (le_max_left _ _) h1, ?_, ?_⟩
      · rcases h2 with h2 | ⟨j, sp2, hj, hr, hh, hle⟩
        · rcases max_cases position (index : Int) with ⟨hm, _⟩ | ⟨hm, _⟩
          · left; rw [h2, hm]
          · right
            exact ⟨0, sp, by simp, by rw [h2, hm]; simp, hq2.1, hq2.2⟩
        · right
          refine ⟨j + 1, sp2, by simpa using hj, ?_, hh, hle⟩
          rw [hr]; congr 1; omega
      · intro j sp2 hj hh hle
        cases j with
        | zero =>
          have : (index : Int) ≤ max position (index : Int) := le_max_right _ _
          simpa using le_trans this h1
        | succ k =>
          have := h3 k sp2 (by simpa using hj) hh hle
          have e : index + (k + 1) = index + 1 + k := by omega
          rw [e]; exact this
    · have hstep : sequencePointLoop ip_offset (sp :: rest) index position =
          sequencePointLoop ip_offset rest (index + 1) position := by
        simp only [sequencePointLoop, hq]
        simp
      obtain ⟨h1, h2, h3⟩ := ih (index + 1) position
      rw [hstep]
      refine ⟨h1, ?_, ?_⟩
      · rcases h2 with h2 | ⟨j, sp2, hj, hr, hh, hle⟩
        · left; exact h2
        · right
          refine ⟨j + 1, sp2, by simpa using hj, ?_, hh, hle⟩
          rw [hr]; congr 1; omega
      · intro j sp2 hj hh hle
        cases j with
        | zero =>
          exfalso
          have hsp : sp2 = sp := by simpa using hj.symm
          subst hsp
          apply hq
          simp [hh, hle]
        | succ k =>
          have := h3 k sp2 (by simpa using hj) hh hle
          have e : index + (k + 1) = index + 1 + k := by omega
          rw [e]; exact this

/-- A matched sequence point sits at the largest index of a qualifying
sequence point. -/
theorem matchedSequencePoint_some (sps : List SequencePoint) (ip_offset : Nat)
    (sp : SequencePoint) (h : matchedSequencePoint sps ip_offset = some sp) :
    ∃ j, sps[j]? = some sp ∧ sp.is_hidden = false ∧ sp.il_offset ≤ ip_offset ∧
      ∀ (k : Nat) (sp2 : SequencePoint), sps[k]? = some sp2 → sp2.is_hidden = false → sp2.il_offset ≤ ip_offset →
        k ≤ j := by
  obtain ⟨_, h2, h3⟩ := sequencePointLoop_spec ip_offset sps 0 (-1)
  unfold matchedSequencePoint matching_sequence_point_position at h
  simp only at h
  split_ifs at h with hne
  rcases h2 with h2 | ⟨j, sp2, hj, hr, hh, hle⟩
  · exact absurd h2 hne
  · rw [hr] at h
    simp only [zero_add, Int.toNat_ofNat] at h
    rw [hj] at h
    cases h
    refine ⟨j, hj, hh, hle, ?_⟩
    intro k sp3 hk hh3 hle3
    have := h3 k sp3 hk hh3 hle3
    rw [hr] at this
    omega

/-- No sequence point is matched only when none qualifies. -/
theorem matchedSequencePoint_none (sps : List SequencePoint) (ip_offset : Nat)
    (h : matchedSequencePoint sps ip_offset = none) :
    ∀ sp ∈ sps, sp.is_hidden = false → ¬ sp.il_offset ≤ ip_offset := by
  intro sp hmem hh hle
  obtain ⟨k, hk⟩ := List.mem_iff_getElem?.mp hmem
  obtain ⟨_, h2, h3⟩ := sequencePointLoop_spec ip_offset sps 0 (-1)
  have hge := h3 k sp hk hh hle
  unfold matchedSequencePoint matching_sequence_point_position at h
  simp only at h
  rcases h2 with h2 | ⟨j, sp2, hj, hr, _, _⟩
  · rw [h2] at hge
    omega
  · have hne : sequencePointLoop ip_offset sps 0 (-1) ≠ -1 := by
      rw [hr]; omega
    rw [if_pos hne, hr] at h
    simp only [zero_add, Int.toNat_ofNat] at h
    rw [hj] at h
    cases h

/-- C1: nearest-preceding-statement rule. For a method whose sequence points
are in strictly increasing `il_offset` order and an instruction offset with at
least one non-hidden sequence point at or before it, the matched sequence
point is a non-hidden point of the method at or before the offset, no other
such point has a larger `il_offset`, and its `start_line` becomes the line
number of the frame. -/
theorem nearest_preceding_statement (il_frame : ICorDebugILFrame) (method : MethodInfo)
    (frame : DbgStackFrame) (trace : List Event)
    (h_sorted : method.sequence_points.Pairwise (fun a b => a.il_offset < b.il_offset))
    (h_exists : ∃ sp ∈ method.sequence_points,
      sp.is_hidden = false ∧ sp.il_offset ≤ il_frame.ip_offset) :
    ∃ sp, matchedSequencePoint method.sequence_points il_frame.ip_offset = some sp ∧
      sp ∈ method.sequence_points ∧ sp.is_hidden = false ∧
      sp.il_offset ≤ il_frame.ip_offset ∧
      (∀ sp2 ∈ method.sequence_points, sp2.is_hidden = false →
        sp2.il_offset ≤ il_frame.ip_offset → sp2.il_offset ≤ sp.il_offset) ∧
      (matchSequencePoint il_frame method frame trace).frame.line_number = sp.start_line := by
  obtain ⟨sp0, hmem0, hh0, hle0⟩ := h_exists
  cases hm : matchedSequencePoint method.sequence_points il_frame.ip_offset with
  | none => exact absurd hle0 (matchedSequencePoint_none _ _ hm sp0 hmem0 hh0)
  | some sp =>
    obtain ⟨j, hj, hh, hle, hmax⟩ := matchedSequencePoint_some _ _ sp hm
    refine ⟨sp, rfl, List.mem_iff_getElem?.mpr ⟨j, hj⟩, hh, hle, ?_, ?_⟩
    · intro sp2 hmem2 hh2 hle2
      obtain ⟨k, hk⟩ := List.mem_iff_getElem?.mp hmem2
      have hkj := hmax k sp2 hk hh2 hle2
      obtain ⟨hjlt, hjeq⟩ := List.getElem?_eq_some.mp hj
      obtain ⟨hklt, hkeq⟩ := List.getElem?_eq_some.mp hk
      rcases Nat.lt_or_eq_of_le hkj with hlt | heq
      · have := List.pairwise_iff_getElem.mp h_sorted k j hklt hjlt hlt
        rw [hjeq, hkeq] at this
        exact Nat.le_of_lt this
      · subst heq
        rw [← hjeq, ← hkeq]
    · simp [matchSequencePoint, hm]

/-- C1, on the sample: with sequence points at `0x0`, `0x10`, `0x20` and the
instruction pointer at `0x15`, the point at `0x10` is matched. -/
theorem nearest_preceding_statement_witness :
    threePoints.Pairwise (fun a b => a.il_offset < b.il_offset) ∧
    matchedSequencePoint threePoints 0x15 = some (samplePoint 0x10 11) ∧
    ∃ sp, matchedSequencePoint threePoints 0x15 = some sp ∧
      sp ∈ threePoints ∧ sp.is_hidden = false ∧ sp.il_offset ≤ 0x15 ∧
      (∀ sp2 ∈ threePoints, sp2.is_hidden = false → sp2.il_offset ≤ 0x15 →
        sp2.il_offset ≤ sp.il_offset) ∧
      (matchSequencePoint (sampleILFrame 0x15 CorDebugMappingResult.MAPPING_EXACT)
        (sampleMethod threePoints twoScopes) DbgStackFrame.fresh []).frame.line_number
        = sp.start_line :=
  ⟨by decide, by decide,
    nearest_preceding_statement (sampleILFrame 0x15 CorDebugMappingResult.MAPPING_EXACT)
      (sampleMethod threePoints twoScopes) DbgStackFrame.fresh [] (by decide) (by decide)⟩

/-- C2: hidden sequence points are never matched. Whatever the order of the
sequence points, a matched point belongs to the method, is not hidden, lies at
or before the instruction offset and gives the frame its line number; and when
every point at or before the offset is hidden, none is matched and the frame is
left as it was, without any call. -/
theorem hidden_sequence_point_never_matched (il_frame : ICorDebugILFrame)
    (method : MethodInfo) (frame : DbgStackFrame) (trace : List Event) :
    (∀ sp, matchedSequencePoint method.sequence_points il_frame.ip_offset = some sp →
      sp ∈ method.sequence_points ∧ sp.is_hidden = false ∧
      sp.il_offset ≤ il_frame.ip_offset ∧
      (matchSequencePoint il_frame method frame trace).frame.line_number = sp.start_line) ∧
    ((∀ sp ∈ method.sequence_points, sp.il_offset ≤ il_frame.ip_offset → sp.is_hidden = true) →
      matchedSequencePoint method.sequence_points il_frame.ip_offset = none ∧
      matchSequencePoint il_frame method frame trace =
        { hr := S_OK, frame := frame, trace := trace }) := by
  constructor
  · intro sp hm
    obtain ⟨j, hj, hh, hle, _⟩ := matchedSequencePoint_some _ _ sp hm
    exact ⟨List.mem_iff_getElem?.mpr ⟨j, hj⟩, hh, hle, by simp [matchSequencePoint, hm]⟩
  · intro hall
    have hnone : matchedSequencePoint method.sequence_points il_frame.ip_offset = none := by
      cases hm : matchedSequencePoint method.sequence_points il_frame.ip_offset with
      | none => rfl
      | some sp =>
        obtain ⟨j, hj, hh, hle, _⟩ := matchedSequencePoint_some _ _ sp hm
        have := hall sp (List.mem_iff_getElem?.mpr ⟨j, hj⟩) hle
        rw [hh] at this
        cases this
    exact ⟨hnone, by simp [matchSequencePoint, hnone]⟩

/-- C2, on the samples: a hidden point at `0x10` is passed over for the visible
one at `0x0`, and a method with only a hidden point matches nothing. -/
theorem hidden_sequence_point_never_matched_witness :
    matchedSequencePoint hiddenNearest 0x15 = some (samplePoint 0x0 10) ∧
    (∀ sp ∈ onlyHidden, sp.il_offset ≤ 0x15 → sp.is_hidden = true) ∧
    matchedSequencePoint onlyHidden 0x15 = none :=
  ⟨by decide, by decide,
    ((hidden_sequence_point_never_matched
      (sampleILFrame 0x15 CorDebugMappingResult.MAPPING_EXACT)
      (sampleMethod onlyHidden []) DbgStackFrame.fresh []).2 (by decide)).1⟩

/-! ## Local scopes -/

/-- The loop over the scopes appends, in order, the variables of every scope
that is not skipped. -/
theorem collectLocalVariables_eq (il_offset : Nat) :
    ∀ (scopes : List LocalScopeInfo) (acc : List LocalVariableInfo),
      collectLocalVariables il_offset scopes acc =
        acc ++ (scopes.filter (fun s => !scopeSkipped s il_offset)).flatMap
          (fun s => s.local_variables) := by
  intro scopes
  induction scopes with
  | nil => intro acc; simp [collectLocalVariables]
  | cons s rest ih =>
    intro acc
    by_cases hs : scopeSkipped s il_offset = true
    · simp [collectLocalVariables, hs, ih]
    · simp only [Bool.not_eq_true] at hs
      simp [collectLocalVariables, hs, ih, List.flatMap_cons]

/-- A scope that covers the offset as a half-open interval, with its end
within the 32-bit range, is not skipped. -/
theorem scopeSkipped_of_scopeCovers (o : Nat) (s : LocalScopeInfo)
    (h : scopeCovers o s = true) : scopeSkipped s o = false := by
  simp only [scopeCovers, Bool.and_eq_true, decide_eq_true_eq] at h
  obtain ⟨⟨h1, h2⟩, h3⟩ := h
  have hmod : (s.start_offset + s.length) % 2 ^ 32 = s.start_offset + s.length :=
    Nat.mod_eq_of_lt h3
  simp only [scopeSkipped, hmod, Bool.or_eq_false_iff, decide_eq_false_iff_not]
  omega

/-- The variables of the covering scopes, concatenated in scope order, form a
sublist of the variables the loop collects. -/
theorem covering_sublist_collected (o : Nat) :
    ∀ scopes : List LocalScopeInfo,
      List.Sublist
        ((scopes.filter (scopeCovers o)).flatMap (fun s => s.local_variables))
        ((scopes.filter (fun s => !scopeSkipped s o)).flatMap (fun s => s.local_variables)) := by
  intro scopes
  induction scopes with
  | nil => simp
  | cons s rest ih =>
    by_cases hc : scopeCovers o s = true
    · have hs := scopeSkipped_of_scopeCovers o s hc
      simp only [List.filter_cons, hc, hs, if_true, Bool.not_false, List.flatMap_cons]
      exact List.Sublist.append (List.Sublist.refl _) ih
    · simp only [Bool.not_eq_true] at hc
      by_cases hs : scopeSkipped s o = true
      · simpa [List.filter_cons, hc, hs] using ih
      · simp only [Bool.not_eq_true] at hs
        simp only [List.filter_cons, hc, hs, Bool.not_false, if_true, List.flatMap_cons]
        exact List.Sublist.trans ih (List.sublist_append_right _ _)

/-- C3, at the failing input: a scope `[0x0, 0x10)` ends exactly at the matched
offset `0x10`, so its half-open interval does not contain the offset, and yet
its variable `z` is put into the frame's variable list. -/
theorem scope_ending_at_offset_contributes :
    matchedSequencePoint threePoints 0x10 = some (samplePoint 0x10 11) ∧
    (∀ s ∈ endingScope, s.start_offset + s.length = 0x10) ∧
    (matchSequencePoint (sampleILFrame 0x10 CorDebugMappingResult.MAPPING_EXACT)
      (sampleMethod threePoints endingScope) DbgStackFrame.fresh []).frame.local_variables
      = [sampleVariable "z" 2] := by
  decide

/-- C4: scope inclusion with duplicates kept. For a matched sequence point,
the list handed to the frame is the concatenation, in the order of
`method.local_scope` and without de-duplication, of the variables of the scopes
that are not skipped; every scope with `start_offset <= o < start_offset +
length` (the sum within the 32-bit range) is among them, so the variables of
those scopes, once per scope and in order, form a sublist of the list, and a
variable occurs in the list at least as often as in those scopes together. -/
theorem covering_scopes_contribute (il_frame : ICorDebugILFrame) (method : MethodInfo)
    (frame : DbgStackFrame) (trace : List Event) (sp : SequencePoint)
    (h : matchedSequencePoint method.sequence_points il_frame.ip_offset = some sp) :
    (matchSequencePoint il_frame method frame trace).frame.local_variables =
      (method.local_scope.filter (fun s => !scopeSkipped s sp.il_offset)).flatMap
        (fun s => s.local_variables) ∧
    (∀ s ∈ method.local_scope, s.start_offset ≤ sp.il_offset →
      sp.il_offset < s.start_offset + s.length → s.start_offset + s.length < 2 ^ 32 →
      scopeSkipped s sp.il_offset = false ∧
      ∀ v ∈ s.local_variables,
        v ∈ (matchSequencePoint il_frame method frame trace).frame.local_variables) ∧
    List.Sublist
      ((method.local_scope.filter (scopeCovers sp.il_offset)).flatMap
        (fun s => s.local_variables))
      (matchSequencePoint il_frame method frame trace).frame.local_variables ∧
    ∀ v, ((method.local_scope.filter (scopeCovers sp.il_offset)).flatMap
        (fun s => s.local_variables)).count v ≤
      (matchSequencePoint il_frame method frame trace).frame.local_variables.count v := by
  have hloc : (matchSequencePoint il_frame method frame trace).frame.local_variables =
      (method.local_scope.filter (fun s => !scopeSkipped s sp.il_offset)).flatMap
        (fun s => s.local_variables) := by
    simp [matchSequencePoint, h, frameLocalVariables, collectLocalVariables_eq]
  have hsub := covering_sublist_collected sp.il_offset method.local_scope
  refine ⟨hloc, ?_, ?_, ?_⟩
  · intro s hs h1 h2 h3
    have hc : scopeCovers sp.il_offset s = true := by
      simp only [scopeCovers, Bool.and_eq_true, decide_eq_true_eq]
      exact ⟨⟨h1, h2⟩, h3⟩
    have hk := scopeSkipped_of_scopeCovers sp.il_offset s hc
    refine ⟨hk, ?_⟩
    intro v hv
    rw [hloc]
    exact List.mem_flatMap.mpr ⟨s, List.mem_filter.mpr ⟨hs, by simp [hk]⟩, hv⟩
  · rw [hloc]; exact hsub
  · intro v
    rw [hloc]
    exact hsub.count_le v

/-- C4, on the samples: at offset `0x10` the variable `x` of the scope
`[0x0, 0x30)` is in the frame's list and `y` of `[0x40, 0x50)` is not; with a
second covering scope nested in the first, `x` is listed twice. -/
theorem covering_scopes_contribute_witness :
    matchedSequencePoint threePoints 0x15 = some (samplePoint 0x10 11) ∧
    (matchSequencePoint (sampleILFrame 0x15 CorDebugMappingResult.MAPPING_EXACT)
      (sampleMethod threePoints twoScopes) DbgStackFrame.fresh []).frame.local_variables
      = [sampleVariable "x" 0] ∧
    (matchSequencePoint (sampleILFrame 0x15 CorDebugMappingResult.MAPPING_EXACT)
      (sampleMethod threePoints nestedScopes) DbgStackFrame.fresh []).frame.local_variables
      = [sampleVariable "x" 0, sampleVariable "x" 0] ∧
    List.Sublist
      (((sampleMethod threePoints nestedScopes).local_scope.filter
        (scopeCovers (samplePoint 0x10 11).il_offset)).flatMap (fun s => s.local_variables))
      (matchSequencePoint (sampleILFrame 0x15 CorDebugMappingResult.MAPPING_EXACT)
        (sampleMethod threePoints nestedScopes) DbgStackFrame.fresh []).frame.local_variables :=
  ⟨by decide, by decide, by decide,
    (covering_scopes_contribute (sampleILFrame 0x15 CorDebugMappingResult.MAPPING_EXACT)
      (sampleMethod threePoints nestedScopes) DbgStackFrame.fresh [] (samplePoint 0x10 11)
      (by decide)).2.2.1⟩

/-! ## Method lookup -/

/-- When the loop over the methods of a document goes on to the next document,
every method was queried successfully and none had the target signature. -/
theorem methodLoop_next (il_frame : ICorDebugILFrame) (metadata_import : IMetaDataImport)
    (method_name : List Nat) (signature : Nat) (document_index : DocumentIndex)
    (frame : DbgStackFrame) :
    ∀ (methods : List MethodInfo) (trace trace2 : List Event),
      methodLoop il_frame metadata_import method_name signature document_index frame
        methods trace = LoopStep.next trace2 →
      ∀ m ∈ methods, 0 ≤ (metadata_import.GetMethodProps m.method_def 0).hr ∧
        (metadata_import.GetMethodProps m.method_def 0).signature ≠ signature := by
  intro methods
  induction methods with
  | nil => intro _ _ _ m hm; cases hm
  | cons m0 rest ih =>
    intro trace trace2 h m hm
    simp only [methodLoop, FAILED, decide_eq_true_eq] at h
    split_ifs at h with h1 h2
    rcases List.mem_cons.mp hm with rfl | hmem
    · exact ⟨not_lt.mp h1, h2⟩
    · exact ih _ _ h m hmem

/-- When the loop over the methods of a document makes the function return,
either a query on some method failed and its code is returned with the frame
untouched, or some method has the target signature and the result is that of
the body run for it. -/
theorem methodLoop_ret (il_frame : ICorDebugILFrame) (metadata_import : IMetaDataImport)
    (method_name : List Nat) (signature : Nat) (document_index : DocumentIndex)
    (frame : DbgStackFrame) :
    ∀ (methods : List MethodInfo) (trace : List Event) (r : PopulateResult),
      methodLoop il_frame metadata_import method_name signature document_index frame
        methods trace = LoopStep.ret r →
      (∃ m ∈ methods, (metadata_import.GetMethodProps m.method_def 0).hr < 0 ∧
        r.hr = (metadata_import.GetMethodProps m.method_def 0).hr ∧ r.frame = frame) ∨
      (∃ m ∈ methods, ∃ trace2,
        0 ≤ (metadata_import.GetMethodProps m.method_def 0).hr ∧
        (metadata_import.GetMethodProps m.method_def 0).signature = signature ∧
        r = resolveMatchedMethod il_frame metadata_import method_name
          (metadata_import.GetMethodProps m.method_def 0).type_def document_index m frame
          trace2) := by
  intro methods
  induction methods with
  | nil => intro _ _ h; simp [methodLoop] at h
  | cons m0 rest ih =>
    intro trace r h
    simp only [methodLoop, FAILED, decide_eq_true_eq] at h
    split_ifs at h with h1 h2
    · left
      cases h
      exact ⟨m0, List.mem_cons_self _ _, h1, rfl, rfl⟩
    · rcases ih _ _ h with ⟨m, hm, hx⟩ | ⟨m, hm, hx⟩
      · left; exact ⟨m, List.mem_cons_of_mem _ hm, hx⟩
      · right; exact ⟨m, List.mem_cons_of_mem _ hm, hx⟩
    · right
      cases h
      exact ⟨m0, List.mem_cons_self _ _, _, not_lt.mp h1, not_not.mp h2, rfl⟩

/-- The three ways the loop over the documents ends: no method has the target
signature (`S_FALSE`, frame untouched); a query on a method failed (its code,
frame untouched); or a method with the target signature was found and the
result is that of the body run for it. -/
theorem documentLoop_cases (il_frame : ICorDebugILFrame) (metadata_import : IMetaDataImport)
    (method_name : List Nat) (signature : Nat) (frame : DbgStackFrame) :
    ∀ (docs : List DocumentIndex) (trace : List Event),
      ((documentLoop il_frame metadata_import method_name signature frame docs trace).hr
          = S_FALSE ∧
        (documentLoop il_frame metadata_import method_name signature frame docs trace).frame
          = frame ∧
        ∀ doc ∈ docs, ∀ m ∈ doc.methods,
          0 ≤ (metadata_import.GetMethodProps m.method_def 0).hr ∧
          (metadata_import.GetMethodProps m.method_def 0).signature ≠ signature) ∨
      (∃ doc ∈ docs, ∃ m ∈ doc.methods,
        (metadata_import.GetMethodProps m.method_def 0).hr < 0 ∧
        (documentLoop il_frame metadata_import method_name signature frame docs trace).hr
          = (metadata_import.GetMethodProps m.method_def 0).hr ∧
        (documentLoop il_frame metadata_import method_name signature frame docs trace).frame
          = frame) ∨
      (∃ doc ∈ docs, ∃ m ∈ doc.methods, ∃ trace2,
        0 ≤ (metadata_import.GetMethodProps m.method_def 0).hr ∧
        (metadata_import.GetMethodProps m.method_def 0).signature = signature ∧
        documentLoop il_frame metadata_import method_name signature frame docs trace =
          resolveMatchedMethod il_frame metadata_import method_name
            (metadata_import.GetMethodProps m.method_def 0).type_def doc m frame trace2) := by
  intro docs
  induction docs with
  | nil => intro trace; left; simp [documentLoop]
  | cons d rest ih =>
    intro trace
    cases hml : methodLoop il_frame metadata_import method_name signature d frame
        d.methods trace with
    | ret r =>
      have hd : documentLoop il_frame metadata_import method_name signature frame
          (d :: rest) trace = r := by simp [documentLoop, hml]
      rw [hd]
      rcases methodLoop_ret _ _ _ _ _ _ _ _ _ hml with ⟨m, hm, h1, h2, h3⟩ | ⟨m, hm, t2, h1, h2, h3⟩
      · right; left
        exact ⟨d, List.mem_cons_self _ _, m, hm, h1, h2, h3⟩
      · right; right
        exact ⟨d, List.mem_cons_self _ _, m, hm, t2, h1, h2, h3⟩
    | next t2 =>
      have hd : documentLoop il_frame metadata_import method_name signature frame
          (d :: rest) trace =
          documentLoop il_frame metadata_import method_name signature frame rest t2 := by
        simp [documentLoop, hml]
      rw [hd]
      have hnext := methodLoop_next _ _ _ _ _ _ _ _ _ hml
      rcases ih t2 with ⟨h1, h2, h3⟩ | ⟨doc, hdoc, hx⟩ | ⟨doc, hdoc, hx⟩
      · left
        refine ⟨h1, h2, ?_⟩
        intro doc hdoc m hm
        rcases List.mem_cons.mp hdoc with rfl | hmem
        · exact hnext m hm
        · exact h3 doc hmem m hm
      · right; left; exact ⟨doc, List.mem_cons_of_mem _ hdoc, hx⟩
      · right; right; exact ⟨doc, List.mem_cons_of_mem _ hdoc, hx⟩

/-! ## The trace of the stack walk -/

theorem failureEndsTrace_of_noWalkFailure (hr : HRESULT) (trace : List Event)
    (h : NoWalkFailure trace) : FailureEndsTrace hr trace := by
  intro before after e htrace hcall hfail
  exact absurd (h e (by rw [htrace]; simp) hcall) (not_le.mpr hfail)

theorem failureEndsTrace_append_last (trace : List Event) (e : Event)
    (h : NoWalkFailure trace) : FailureEndsTrace e.hr (trace ++ [e]) := by
  intro before after e2 htrace hcall hfail
  rcases List.eq_nil_or_concat after with rfl | ⟨init, last, rfl⟩
  · rw [← List.concat_eq_append, ← List.concat_eq_append] at htrace
    have := List.concat_inj.mp htrace
    exact ⟨rfl, by rw [this.2]⟩
  · exfalso
    have h2 : trace ++ [e] = (before ++ e2 :: init) ++ [last] := by
      rw [htrace]; simp
    have h3 := List.append_inj_left' h2 rfl
    exact absurd (h e2 (by rw [h3]; simp) hcall) (not_le.mpr hfail)

theorem noWalkFailure_append (t1 t2 : List Event) (h1 : NoWalkFailure t1)
    (h2 : NoWalkFailure t2) : NoWalkFailure (t1 ++ t2) := by
  intro e he
  rcases List.mem_append.mp he with h | h
  · exact h1 e h
  · exact h2 e h

theorem noWalkFailure_single (e : Event)
    (h : e.call.isStackWalkCall = true → 0 ≤ e.hr) : NoWalkFailure [e] := by
  intro e2 he
  rw [List.mem_singleton.mp he]
  exact h

theorem noWalkFailure_nil : NoWalkFailure [] := by
  intro e he
  cases he

theorem onlyPopulateCalls_concat (trace : List Event) (e : Event)
    (h : OnlyPopulateCalls trace) (he : e.call.isStackWalkCall = false) :
    OnlyPopulateCalls (trace ++ [e]) := by
  intro e2 hmem
  rcases List.mem_append.mp hmem with h2 | h2
  · exact h e2 h2
  · rw [List.mem_singleton.mp h2]; exact he

theorem noWalkFailure_of_onlyPopulateCalls (trace : List Event)
    (h : OnlyPopulateCalls trace) : NoWalkFailure trace := by
  intro e he hcall
  rw [h e he] at hcall
  cases hcall

theorem matchSequencePoint_trace (il_frame : ICorDebugILFrame) (method : MethodInfo)
    (frame : DbgStackFrame) (trace : List Event) (h : OnlyPopulateCalls trace) :
    OnlyPopulateCalls (matchSequencePoint il_frame method frame trace).trace := by
  unfold matchSequencePoint
  split
  · exact onlyPopulateCalls_concat _ _ h rfl
  · exact h

theorem resolveMatchedMethod_trace (il_frame : ICorDebugILFrame)
    (metadata_import : IMetaDataImport) (method_name : List Nat) (type_def : Nat)
    (document_index : DocumentIndex) (method : MethodInfo) (frame : DbgStackFrame)
    (trace : List Event) (h : OnlyPopulateCalls trace) :
    OnlyPopulateCalls (resolveMatchedMethod il_frame metadata_import method_name type_def
      document_index method frame trace).trace := by
  have h1 := onlyPopulateCalls_concat _
    ⟨Call.GetTypeDefProps type_def 0, (metadata_import.GetTypeDefProps type_def 0).hr⟩ h rfl
  have h2 := onlyPopulateCalls_concat _
    ⟨Call.GetTypeDefProps type_def (metadata_import.GetTypeDefProps type_def 0).name_length,
      (metadata_import.GetTypeDefProps type_def
        (metadata_import.GetTypeDefProps type_def 0).name_length).hr⟩ h1 rfl
  have h3 := onlyPopulateCalls_concat _ ⟨Call.GetIP, il_frame.GetIP⟩ h2 rfl
  unfold resolveMatchedMethod
  simp only
  split_ifs
  · exact h1
  · exact h2
  · exact h3
  · exact h3
  · exact matchSequencePoint_trace _ _ _ _ h3

theorem methodLoop_trace (il_frame : ICorDebugILFrame) (metadata_import : IMetaDataImport)
    (method_name : List Nat) (signature : Nat) (document_index : DocumentIndex)
    (frame : DbgStackFrame) :
    ∀ (methods : List MethodInfo) (trace : List Event), OnlyPopulateCalls trace →
      match methodLoop il_frame metadata_import method_name signature document_index frame
          methods trace with
      | LoopStep.next trace2 => OnlyPopulateCalls trace2
      | LoopStep.ret r => OnlyPopulateCalls r.trace := by
  intro methods
  induction methods with
  | nil => intro trace h; simpa [methodLoop] using h
  | cons m rest ih =>
    intro trace h
    have h1 := onlyPopulateCalls_concat _
      ⟨Call.GetMethodProps m.method_def 0, (metadata_import.GetMethodProps m.method_def 0).hr⟩
      h rfl
    simp only [methodLoop]
    split_ifs
    · exact h1
    · exact ih _ h1
    · exact resolveMatchedMethod_trace _ _ _ _ _ _ _ _ h1

theorem documentLoop_trace (il_frame : ICorDebugILFrame) (metadata_import : IMetaDataImport)
    (method_name : List Nat) (signature : Nat) (frame : DbgStackFrame) :
    ∀ (docs : List DocumentIndex) (trace : List Event), OnlyPopulateCalls trace →
      OnlyPopulateCalls
        (documentLoop il_frame metadata_import method_name signature frame docs trace).trace := by
  intro docs
  induction docs with
  | nil => intro trace h; simpa [documentLoop] using h
  | cons d rest ih =>
    intro trace h
    have hm := methodLoop_trace il_frame metadata_import method_name signature d frame
      d.methods trace h
    simp only [documentLoop]
    cases hml : methodLoop il_frame metadata_import method_name signature d frame
        d.methods trace with
    | ret r => rw [hml] at hm; exact hm
    | next t2 => rw [hml] at hm; exact ih t2 hm

/-- Every call `PopulateLocalVarsAndMethodArgs` records is one of its own: a
metadata query, `GetIP` or the binding of the variables. -/
theorem populate_trace (target_function_token : Nat) (frame : DbgStackFrame)
    (il_frame : ICorDebugILFrame) (pdb_file : PortablePdbFile) :
    OnlyPopulateCalls (PopulateLocalVarsAndMethodArgs target_function_token (some frame)
      (some il_frame) pdb_file).trace := by
  have h0 : OnlyPopulateCalls [(⟨Call.GetMetaDataImport, pdb_file.GetMetaDataImport⟩ : Event)] := by
    intro e he
    rw [List.mem_singleton.mp he]; rfl
  have h1 := onlyPopulateCalls_concat _
    ⟨Call.GetMethodProps target_function_token 0,
      (pdb_file.metadata_import.GetMethodProps target_function_token 0).hr⟩ h0 rfl
  have h2 := onlyPopulateCalls_concat _
    ⟨Call.GetMethodProps target_function_token
        (pdb_file.metadata_import.GetMethodProps target_function_token 0).name_length,
      (pdb_file.metadata_import.GetMethodProps target_function_token
        (pdb_file.metadata_import.GetMethodProps target_function_token 0).name_length).hr⟩
    h1 rfl
  simp only [PopulateLocalVarsAndMethodArgs, populateBody]
  split_ifs
  · exact h1
  · exact h2
  · exact documentLoop_trace _ _ _ _ _ _ _ h2

theorem noWalkFailure_concat (trace : List Event) (e : Event) (h : NoWalkFailure trace)
    (he : 0 ≤ e.hr) : NoWalkFailure (trace ++ [e]) :=
  noWalkFailure_append _ _ h (noWalkFailure_single e (fun _ => he))

theorem pdbLoop_trace (target_function_token target_module_token : Nat)
    (il_frame : ICorDebugILFrame) :
    ∀ (pdb_files : List PortablePdbFile) (stack_frame : DbgStackFrame) (trace : List Event),
      NoWalkFailure trace →
      match pdbLoop target_function_token target_module_token il_frame stack_frame
          pdb_files trace with
      | PdbLoopResult.ret hr trace2 => FailureEndsTrace hr trace2
      | PdbLoopResult.done _ trace2 => NoWalkFailure trace2 := by
  intro pdb_files
  induction pdb_files with
  | nil => intro stack_frame trace h; simpa [pdbLoop] using h
  | cons p rest ih =>
    intro stack_frame trace h
    simp only [pdbLoop, FAILED, decide_eq_true_eq]
    split_ifs with h1 h2 h3 h4 h5
    · exact failureEndsTrace_append_last _ ⟨Call.GetDebugModule, p.GetDebugModule⟩ h
    · exact failureEndsTrace_append_last _ ⟨Call.PdbModuleGetToken, p.debug_module_token.1⟩
        (noWalkFailure_concat _ ⟨Call.GetDebugModule, p.GetDebugModule⟩ h (not_lt.mp h1))
    · exact ih _ _ (noWalkFailure_concat _ ⟨Call.PdbModuleGetToken, p.debug_module_token.1⟩
        (noWalkFailure_concat _ ⟨Call.GetDebugModule, p.GetDebugModule⟩ h (not_lt.mp h1))
        (not_lt.mp h2))
    · exact ih _ _ (noWalkFailure_append _ _
        (noWalkFailure_concat _ ⟨Call.PdbModuleGetToken, p.debug_module_token.1⟩
          (noWalkFailure_concat _ ⟨Call.GetDebugModule, p.GetDebugModule⟩ h (not_lt.mp h1))
          (not_lt.mp h2))
        (noWalkFailure_of_onlyPopulateCalls _ (populate_trace _ _ _ _)))
    · exact failureEndsTrace_of_noWalkFailure _ _ (noWalkFailure_append _ _
        (noWalkFailure_concat _ ⟨Call.PdbModuleGetToken, p.debug_module_token.1⟩
          (noWalkFailure_concat _ ⟨Call.GetDebugModule, p.GetDebugModule⟩ h (not_lt.mp h1))
          (not_lt.mp h2))
        (noWalkFailure_of_onlyPopulateCalls _ (populate_trace _ _ _ _)))
    · exact noWalkFailure_append _ _
        (noWalkFailure_concat _ ⟨Call.PdbModuleGetToken, p.debug_module_token.1⟩
          (noWalkFailure_concat _ ⟨Call.GetDebugModule, p.GetDebugModule⟩ h (not_lt.mp h1))
          (not_lt.mp h2))
        (noWalkFailure_of_onlyPopulateCalls _ (populate_trace _ _ _ _))

theorem framePdbLoop_trace (pdb_files : List PortablePdbFile) (position : StackWalkPosition)
    (trace : List Event) (h : NoWalkFailure trace) :
    match framePdbLoop pdb_files position trace with
    | PdbLoopResult.ret hr trace2 => FailureEndsTrace hr trace2
    | PdbLoopResult.done _ trace2 => NoWalkFailure trace2 := by
  have a1 := fun hq => noWalkFailure_concat trace
    ⟨Call.QueryInterface, position.QueryInterface⟩ h hq
  have a2 := fun hq hf => noWalkFailure_concat _
    ⟨Call.GetFunction, position.il_frame.GetFunction⟩ (a1 hq) hf
  have a3 := fun hq hf ht => noWalkFailure_concat _
    ⟨Call.FunctionGetToken, position.il_frame.function_token.1⟩ (a2 hq hf) ht
  have a4 := fun hq hf ht hm => noWalkFailure_concat _
    ⟨Call.GetModule, position.il_frame.GetModule⟩ (a3 hq hf ht) hm
  have a5 := fun hq hf ht hm hk => noWalkFailure_concat _
    ⟨Call.ModuleGetToken, position.il_frame.module_token.1⟩ (a4 hq hf ht hm) hk
  simp only [framePdbLoop, FAILED, decide_eq_true_eq]
  split_ifs with h1 h2 h3 h4 h5
  · exact failureEndsTrace_append_last _ ⟨Call.QueryInterface, position.QueryInterface⟩ h
  · exact failureEndsTrace_append_last _ ⟨Call.GetFunction, position.il_frame.GetFunction⟩
      (a1 (not_lt.mp h1))
  · exact failureEndsTrace_append_last _
      ⟨Call.FunctionGetToken, position.il_frame.function_token.1⟩
      (a2 (not_lt.mp h1) (not_lt.mp h2))
  · exact failureEndsTrace_append_last _ ⟨Call.GetModule, position.il_frame.GetModule⟩
      (a3 (not_lt.mp h1) (not_lt.mp h2) (not_lt.mp h3))
  · exact failureEndsTrace_append_last _
      ⟨Call.ModuleGetToken, position.il_frame.module_token.1⟩
      (a4 (not_lt.mp h1) (not_lt.mp h2) (not_lt.mp h3) (not_lt.mp h4))
  · exact pdbLoop_trace _ _ _ _ _ _
      (a5 (not_lt.mp h1) (not_lt.mp h2) (not_lt.mp h3) (not_lt.mp h4) (not_lt.mp h5))

theorem walkLoop_trace (pdb_files : List PortablePdbFile) :
    ∀ (walk : ICorDebugStackWalk) (stack_frames_ : List DbgStackFrame) (trace : List Event),
      NoWalkFailure trace →
      FailureEndsTrace (walkLoop pdb_files walk stack_frames_ trace).hr
        (walkLoop pdb_files walk stack_frames_ trace).trace := by
  intro walk
  induction walk with
  | nil =>
    intro stack_frames_ trace h
    simp only [walkLoop]
    exact failureEndsTrace_of_noWalkFailure _ _
      (noWalkFailure_concat _ ⟨Call.GetFrame, S_FALSE⟩ h (by decide))
  | cons position rest ih =>
    intro stack_frames_ trace h
    simp only [walkLoop, FAILED, SUCCEEDED, decide_eq_true_eq]
    split_ifs with h1 h2 h3
    · exact failureEndsTrace_of_noWalkFailure _ _
        (noWalkFailure_concat _ ⟨Call.GetFrame, position.GetFrame⟩ h (by rw [h1]; decide))
    · exact failureEndsTrace_append_last _ ⟨Call.GetFrame, position.GetFrame⟩ h
    · have hf := framePdbLoop_trace pdb_files position
        (trace ++ [⟨Call.GetFrame, position.GetFrame⟩])
        (noWalkFailure_concat _ ⟨Call.GetFrame, position.GetFrame⟩ h (not_lt.mp h2))
      cases hres : framePdbLoop pdb_files position
          (trace ++ [⟨Call.GetFrame, position.GetFrame⟩]) with
      | ret hr t2 =>
        rw [hres] at hf
        exact hf
      | done pushed t2 =>
        rw [hres] at hf
        exact ih _ _ (noWalkFailure_concat _ ⟨Call.Next, position.Next⟩ hf h3)
    · have hf := framePdbLoop_trace pdb_files position
        (trace ++ [⟨Call.GetFrame, position.GetFrame⟩])
        (noWalkFailure_concat _ ⟨Call.GetFrame, position.GetFrame⟩ h (not_lt.mp h2))
      cases hres : framePdbLoop pdb_files position
          (trace ++ [⟨Call.GetFrame, position.GetFrame⟩]) with
      | ret hr t2 =>
        rw [hres] at hf
        exact hf
      | done pushed t2 =>
        rw [hres] at hf
        exact failureEndsTrace_append_last _ ⟨Call.Next, position.Next⟩ hf

/-- C8: stack-walk failures abort the walk. In every run of `Initialize` on a
non-null stack walk, a call of the walk itself (`GetFrame`, `QueryInterface`,
`GetFunction`, the function's `GetToken`, `GetModule`, the module's
`GetToken`, a pdb file's `GetDebugModule` or its `GetToken`, `Next`) that
returns a failure is the last call of the run, and `Initialize` returns its
result code. -/
theorem stack_walk_failure_aborts (walk : ICorDebugStackWalk)
    (pdb_files : List PortablePdbFile) (stack_frames_ : List DbgStackFrame)
    (before after : List Event) (e : Event)
    (h_trace : (StackFrameCollection.Initialize (some walk) pdb_files stack_frames_).trace
      = before ++ e :: after)
    (h_call : e.call.isStackWalkCall = true) (h_failed : e.hr < 0) :
    after = [] ∧
    (StackFrameCollection.Initialize (some walk) pdb_files stack_frames_).hr = e.hr := by
  have h := walkLoop_trace pdb_files walk stack_frames_ [] noWalkFailure_nil
  exact h before after e h_trace h_call h_failed

/-- C8, on the sample: `GetFunction` fails on the first of two frames; it is
the last call of the run and `Initialize` returns its code. -/
theorem stack_walk_failure_aborts_witness :
    (StackFrameCollection.Initialize (some failingWalk) loadedPdbs []).trace =
      [⟨Call.GetFrame, S_OK⟩, ⟨Call.QueryInterface, S_OK⟩] ++
        ⟨Call.GetFunction, E_FAIL⟩ :: [] ∧
    (([] : List Event) = [] ∧
      (StackFrameCollection.Initialize (some failingWalk) loadedPdbs []).hr =
        (⟨Call.GetFunction, E_FAIL⟩ : Event).hr) :=
  ⟨by decide,
    stack_walk_failure_aborts failingWalk loadedPdbs []
      [⟨Call.GetFrame, S_OK⟩, ⟨Call.QueryInterface, S_OK⟩] [] ⟨Call.GetFunction, E_FAIL⟩
      (by decide) (by decide) (by decide)⟩

/-! ## The result of the walk does not depend on the calls recorded before -/

theorem pdbLoop_trace_irrelevant (target_function_token target_module_token : Nat)
    (il_frame : ICorDebugILFrame) :
    ∀ (pdb_files : List PortablePdbFile) (stack_frame : DbgStackFrame) (trace : List Event),
      (pdbLoop target_function_token target_module_token il_frame stack_frame pdb_files
          trace).pushed =
        (pdbLoop target_function_token target_module_token il_frame stack_frame pdb_files
          []).pushed ∧
      (pdbLoop target_function_token target_module_token il_frame stack_frame pdb_files
          trace).returned =
        (pdbLoop target_function_token target_module_token il_frame stack_frame pdb_files
          []).returned := by
  intro pdb_files
  induction pdb_files with
  | nil => intro stack_frame trace; exact ⟨rfl, rfl⟩
  | cons p rest ih =>
    intro stack_frame trace
    simp only [pdbLoop]
    split_ifs
    · exact ⟨rfl, rfl⟩
    · exact ⟨rfl, rfl⟩
    · exact ⟨(ih _ _).1.trans (ih _ _).1.symm, (ih _ _).2.trans (ih _ _).2.symm⟩
    · exact ⟨(ih _ _).1.trans (ih _ _).1.symm, (ih _ _).2.trans (ih _ _).2.symm⟩
    · exact ⟨rfl, rfl⟩
    · exact ⟨rfl, rfl⟩

theorem framePdbLoop_trace_irrelevant (pdb_files : List PortablePdbFile)
    (position : StackWalkPosition) (trace : List Event) :
    (framePdbLoop pdb_files position trace).pushed = frameEntry pdb_files position ∧
    (framePdbLoop pdb_files position trace).returned =
      (framePdbLoop pdb_files position []).returned := by
  simp only [frameEntry, framePdbLoop]
  split_ifs
  · exact ⟨rfl, rfl⟩
  · exact ⟨rfl, rfl⟩
  · exact ⟨rfl, rfl⟩
  · exact ⟨rfl, rfl⟩
  · exact ⟨rfl, rfl⟩
  · exact ⟨(pdbLoop_trace_irrelevant _ _ _ _ _ _).1.trans
        (pdbLoop_trace_irrelevant _ _ _ _ _ _).1.symm,
      (pdbLoop_trace_irrelevant _ _ _ _ _ _).2.trans
        (pdbLoop_trace_irrelevant _ _ _ _ _ _).2.symm⟩

/-- One step of the walk at a position where `GetFrame` reports a frame, in
terms of what the loop over the symbol files returns or pushes. -/
theorem walkLoop_cons (pdb_files : List PortablePdbFile) (position : StackWalkPosition)
    (rest : ICorDebugStackWalk) (stack_frames_ : List DbgStackFrame) (trace : List Event)
    (h1 : position.GetFrame ≠ S_FALSE) (h2 : 0 ≤ position.GetFrame) :
    (∀ hr, (framePdbLoop pdb_files position []).returned = some hr →
      (walkLoop pdb_files (position :: rest) stack_frames_ trace).hr = hr ∧
      (walkLoop pdb_files (position :: rest) stack_frames_ trace).stack_frames_
        = stack_frames_) ∧
    ((framePdbLoop pdb_files position []).returned = none →
      (0 ≤ position.Next → ∃ trace2,
        walkLoop pdb_files (position :: rest) stack_frames_ trace =
          walkLoop pdb_files rest
            (stack_frames_ ++ (frameEntry pdb_files position).toList) trace2) ∧
      (position.Next < 0 →
        (walkLoop pdb_files (position :: rest) stack_frames_ trace).hr = position.Next ∧
        (walkLoop pdb_files (position :: rest) stack_frames_ trace).stack_frames_ =
          stack_frames_ ++ (frameEntry pdb_files position).toList)) := by
  have hirr := framePdbLoop_trace_irrelevant pdb_files position
    (trace ++ [⟨Call.GetFrame, position.GetFrame⟩])
  have hstep : walkLoop pdb_files (position :: rest) stack_frames_ trace =
      match framePdbLoop pdb_files position
          (trace ++ [⟨Call.GetFrame, position.GetFrame⟩]) with
      | PdbLoopResult.ret hr trace => { hr := hr, stack_frames_ := stack_frames_, trace := trace }
      | PdbLoopResult.done pushed trace =>
        if SUCCEEDED position.Next then
          walkLoop pdb_files rest (stack_frames_ ++ pushed.toList)
            (trace ++ [⟨Call.Next, position.Next⟩])
        else { hr := position.Next, stack_frames_ := stack_frames_ ++ pushed.toList,
               trace := trace ++ [⟨Call.Next, position.Next⟩] } := by
    simp only [walkLoop, FAILED, decide_eq_true_eq, if_neg h1, if_neg (not_lt.mpr h2)]
  rw [hstep]
  cases hres : framePdbLoop pdb_files position
      (trace ++ [⟨Call.GetFrame, position.GetFrame⟩]) with
  | ret hr0 t2 =>
    rw [hres] at hirr
    have hret0 : (framePdbLoop pdb_files position []).returned = some hr0 := hirr.2.symm
    refine ⟨?_, ?_⟩
    · intro hr hret
      rw [hret0] at hret
      cases hret
      exact ⟨rfl, rfl⟩
    · intro hnone
      rw [hret0] at hnone
      cases hnone
  | done pushed t2 =>
    rw [hres] at hirr
    have hret0 : (framePdbLoop pdb_files position []).returned = none := hirr.2.symm
    have hpushed : pushed = frameEntry pdb_files position := hirr.1
    refine ⟨?_, ?_⟩
    · intro hr hret
      rw [hret0] at hret
      cases hret
    · intro _
      rw [← hpushed]
      refine ⟨?_, ?_⟩
      · intro hnext
        refine ⟨t2 ++ [⟨Call.Next, position.Next⟩], ?_⟩
        simp [SUCCEEDED, hnext]
      · intro hnext
        simp [SUCCEEDED, not_le.mpr hnext]

theorem walkLoop_trace_irrelevant (pdb_files : List PortablePdbFile) :
    ∀ (walk : ICorDebugStackWalk) (stack_frames_ : List DbgStackFrame)
      (trace1 trace2 : List Event),
      (walkLoop pdb_files walk stack_frames_ trace1).hr =
        (walkLoop pdb_files walk stack_frames_ trace2).hr ∧
      (walkLoop pdb_files walk stack_frames_ trace1).stack_frames_ =
        (walkLoop pdb_files walk stack_frames_ trace2).stack_frames_ := by
  intro walk
  induction walk with
  | nil => intro _ _ _; exact ⟨rfl, rfl⟩
  | cons position rest ih =>
    intro stack_frames_ trace1 trace2
    by_cases h1 : position.GetFrame = S_FALSE
    · simp [walkLoop, h1]
    by_cases h2 : position.GetFrame < 0
    · simp [walkLoop, h1, FAILED, h2]
    have c1 := walkLoop_cons pdb_files position rest stack_frames_ trace1 h1 (not_lt.mp h2)
    have c2 := walkLoop_cons pdb_files position rest stack_frames_ trace2 h1 (not_lt.mp h2)
    cases hret : (framePdbLoop pdb_files position []).returned with
    | some hr =>
      obtain ⟨a1, a2⟩ := c1.1 hr hret
      obtain ⟨b1, b2⟩ := c2.1 hr hret
      exact ⟨a1.trans b1.symm, a2.trans b2.symm⟩
    | none =>
      by_cases hn : 0 ≤ position.Next
      · obtain ⟨t1, e1⟩ := (c1.2 hret).1 hn
        obtain ⟨t2, e2⟩ := (c2.2 hret).1 hn
        rw [e1, e2]
        exact ih _ t1 t2
      · obtain ⟨a1, a2⟩ := (c1.2 hret).2 (not_le.mp hn)
        obtain ⟨b1, b2⟩ := (c2.2 hret).2 (not_le.mp hn)
        exact ⟨a1.trans b1.symm, a2.trans b2.symm⟩

/-! ## Frames without a symbol file -/

theorem pdbLoop_no_match (target_function_token target_module_token : Nat)
    (il_frame : ICorDebugILFrame) :
    ∀ (pdb_files : List PortablePdbFile) (stack_frame : DbgStackFrame) (trace : List Event),
      (∀ pdb ∈ pdb_files, pdb.callsSucceed) →
      (∀ pdb ∈ pdb_files, pdb.debug_module_token.2 ≠ target_module_token) →
      (pdbLoop target_function_token target_module_token il_frame stack_frame pdb_files
          trace).pushed = none ∧
      (pdbLoop target_function_token target_module_token il_frame stack_frame pdb_files
          trace).returned = none := by
  intro pdb_files
  induction pdb_files with
  | nil => intro _ _ _ _; exact ⟨rfl, rfl⟩
  | cons p rest ih =>
    intro stack_frame trace hs ht
    obtain ⟨s1, s2⟩ := hs p (List.mem_cons_self _ _)
    have hne : target_module_token ≠ p.debug_module_token.2 :=
      fun h => ht p (List.mem_cons_self _ _) h.symm
    simp only [pdbLoop, FAILED, decide_eq_true_eq, if_neg (not_lt.mpr s1),
      if_neg (not_lt.mpr s2), if_pos hne]
    exact ih _ _ (fun q hq => hs q (List.mem_cons_of_mem _ hq))
      (fun q hq => ht q (List.mem_cons_of_mem _ hq))

theorem framePdbLoop_of_callsSucceed (pdb_files : List PortablePdbFile)
    (position : StackWalkPosition) (trace : List Event) (h : position.callsSucceed) :
    ∃ trace2, framePdbLoop pdb_files position trace =
      pdbLoop position.il_frame.function_token.2 position.il_frame.module_token.2
        position.il_frame DbgStackFrame.fresh pdb_files trace2 := by
  obtain ⟨_, _, h3, h4, h5, h6, h7, _⟩ := h
  refine ⟨trace ++ [⟨Call.QueryInterface, position.QueryInterface⟩] ++
    [⟨Call.GetFunction, position.il_frame.GetFunction⟩] ++
    [⟨Call.FunctionGetToken, position.il_frame.function_token.1⟩] ++
    [⟨Call.GetModule, position.il_frame.GetModule⟩] ++
    [⟨Call.ModuleGetToken, position.il_frame.module_token.1⟩], ?_⟩
  simp only [framePdbLoop, FAILED, decide_eq_true_eq, if_neg (not_lt.mpr h3),
    if_neg (not_lt.mpr h4), if_neg (not_lt.mpr h5), if_neg (not_lt.mpr h6),
    if_neg (not_lt.mpr h7)]

/-- A walk on which every call of the walk succeeds and no loop over the symbol
files returns ends with `S_OK` and adds the entries of its positions, in
order. -/
theorem walkLoop_all_succeed (pdb_files : List PortablePdbFile) :
    ∀ (walk : ICorDebugStackWalk) (stack_frames_ : List DbgStackFrame) (trace : List Event),
      (∀ p ∈ walk, p.callsSucceed ∧ (framePdbLoop pdb_files p []).returned = none) →
      (walkLoop pdb_files walk stack_frames_ trace).hr = S_OK ∧
      (walkLoop pdb_files walk stack_frames_ trace).stack_frames_ =
        stack_frames_ ++ walk.filterMap (frameEntry pdb_files) := by
  intro walk
  induction walk with
  | nil => intro stack_frames_ trace _; simp [walkLoop]
  | cons p rest ih =>
    intro stack_frames_ trace h
    obtain ⟨hc, hret⟩ := h p (List.mem_cons_self _ _)
    obtain ⟨t2, e⟩ := ((walkLoop_cons pdb_files p rest stack_frames_ trace hc.1 hc.2.1).2
      hret).1 hc.2.2.2.2.2.2.2
    rw [e]
    obtain ⟨a, b⟩ := ih (stack_frames_ ++ (frameEntry pdb_files p).toList) t2
      (fun q hq => h q (List.mem_cons_of_mem _ hq))
    refine ⟨a, ?_⟩
    rw [b]
    cases hfe : frameEntry pdb_files p with
    | none => simp [List.filterMap_cons, hfe]
    | some f => simp [List.filterMap_cons, hfe]

theorem returned_none_of_pushed (r : PdbLoopResult) (h : r.pushed.isSome = true) :
    r.returned = none := by
  cases r with
  | ret hr t => simp [PdbLoopResult.pushed] at h
  | done p t => rfl

theorem filterMap_eraseIdx_of_none {α β : Type} (f : α → Option β) :
    ∀ (l : List α) (k : Nat) (hk : k < l.length), f l[k] = none →
      l.filterMap f = (l.eraseIdx k).filterMap f := by
  intro l
  induction l with
  | nil => intro k hk; simp at hk
  | cons a rest ih =>
    intro k hk hnone
    cases k with
    | zero =>
      simp only [List.getElem_cons_zero] at hnone
      simp [List.filterMap_cons, hnone]
    | succ j =>
      simp only [List.getElem_cons_succ] at hnone
      simp only [List.eraseIdx_cons_succ, List.filterMap_cons]
      rw [ih j (by simpa using hk) hnone]

theorem filterMap_of_all_some {α β : Type} (f : α → Option β) :
    ∀ (l : List α), (∀ a ∈ l, (f a).isSome = true) →
      (l.filterMap f).map some = l.map f := by
  intro l
  induction l with
  | nil => intro _; rfl
  | cons a rest ih =>
    intro h
    have ha := h a (List.mem_cons_self _ _)
    cases hfa : f a with
    | none => rw [hfa] at ha; cases ha
    | some b =>
      simp only [List.filterMap_cons, hfa, List.map_cons]
      rw [ih (fun x hx => h x (List.mem_cons_of_mem _ hx))]

/-- C6: omission, not failure. On a walk over `N` frames on which every call
of the walk succeeds, where the module token of frame `k` equals that of none
of the symbol files and every other frame resolves (the loop over the symbol
files pushes an entry for it), `Initialize` returns `S_OK` and appends exactly
`N - 1` entries: those of the frames other than `k`, in the order of the walk;
frame `k` has no entry. -/
theorem omission_not_failure (walk : ICorDebugStackWalk) (pdb_files : List PortablePdbFile)
    (stack_frames_ : List DbgStackFrame) (k : Nat) (hk : k < walk.length)
    (h_walk : ∀ p ∈ walk, p.callsSucceed)
    (h_pdb : ∀ pdb ∈ pdb_files, pdb.callsSucceed)
    (h_k : ∀ pdb ∈ pdb_files, pdb.debug_module_token.2 ≠ (walk[k]).il_frame.module_token.2)
    (h_others : ∀ (i : Nat) (hi : i < walk.length), i ≠ k →
      (frameEntry pdb_files walk[i]).isSome = true) :
    (StackFrameCollection.Initialize (some walk) pdb_files stack_frames_).hr = S_OK ∧
    frameEntry pdb_files walk[k] = none ∧
    ∃ entries : List DbgStackFrame,
      (StackFrameCollection.Initialize (some walk) pdb_files stack_frames_).stack_frames_
        = stack_frames_ ++ entries ∧
      entries.length = walk.length - 1 ∧
      entries.map some = (walk.eraseIdx k).map (frameEntry pdb_files) := by
  have hk_mem : walk[k] ∈ walk := List.getElem_mem hk
  -- frame `k`: no symbol file matches its module
  have hk_loop : (framePdbLoop pdb_files walk[k] []).pushed = none ∧
      (framePdbLoop pdb_files walk[k] []).returned = none := by
    obtain ⟨t2, e⟩ := framePdbLoop_of_callsSucceed pdb_files walk[k] [] (h_walk _ hk_mem)
    rw [e]
    exact pdbLoop_no_match _ _ _ _ _ _ h_pdb h_k
  have hk_none : frameEntry pdb_files walk[k] = none := hk_loop.1
  -- no loop over the symbol files returns
  have h_ret : ∀ p ∈ walk, p.callsSucceed ∧ (framePdbLoop pdb_files p []).returned = none := by
    intro p hp
    refine ⟨h_walk p hp, ?_⟩
    obtain ⟨i, hi, rfl⟩ := List.getElem_of_mem hp
    by_cases hik : i = k
    · subst hik; exact hk_loop.2
    · exact returned_none_of_pushed _ (h_others i hi hik)
  obtain ⟨a, b⟩ := walkLoop_all_succeed pdb_files walk stack_frames_ [] h_ret
  have h_some : ∀ p ∈ walk.eraseIdx k, (frameEntry pdb_files p).isSome = true := by
    intro p hp
    obtain ⟨j, hj, rfl⟩ := List.getElem_of_mem hp
    rw [List.getElem_eraseIdx]
    split_ifs with hjk
    · exact h_others j _ (Nat.ne_of_lt hjk)
    · exact h_others (j + 1) _ (by omega)
  refine ⟨a, hk_none, (walk.eraseIdx k).filterMap (frameEntry pdb_files), ?_, ?_, ?_⟩
  · show (walkLoop pdb_files walk stack_frames_ []).stack_frames_ = _
    rw [b, filterMap_eraseIdx_of_none (frameEntry pdb_files) walk k hk hk_none]
  · have := congrArg List.length (filterMap_of_all_some (frameEntry pdb_files) _ h_some)
    simp only [List.length_map] at this
    rw [this, List.length_eraseIdx, if_pos hk]
  · exact filterMap_of_all_some (frameEntry pdb_files) _ h_some

/-- C6, on the sample: of three frames the second belongs to module `2`, for
which there is no symbol file; the walk returns `S_OK` with the entries of the
first and the third frame, in that order. -/
theorem omission_not_failure_witness :
    (StackFrameCollection.Initialize (some threeFrameWalk) loadedPdbs []).stack_frames_ =
      [{ file := "Foo.cs", method := [77, 0], class_name := [65, 0], line_number := 11,
         local_variables := [sampleVariable "x" 0] },
       { file := "Foo.cs", method := [77, 0], class_name := [65, 0], line_number := 10,
         local_variables := [sampleVariable "x" 0] }] ∧
    ((StackFrameCollection.Initialize (some threeFrameWalk) loadedPdbs []).hr = S_OK ∧
    frameEntry loadedPdbs (threeFrameWalk.get ⟨1, by decide⟩) = none ∧
    ∃ entries : List DbgStackFrame,
      (StackFrameCollection.Initialize (some threeFrameWalk) loadedPdbs []).stack_frames_
        = [] ++ entries ∧
      entries.length = threeFrameWalk.length - 1 ∧
      entries.map some = (threeFrameWalk.eraseIdx 1).map (frameEntry loadedPdbs)) :=
  ⟨by decide,
    omission_not_failure threeFrameWalk loadedPdbs [] 1 (by decide) (by decide) (by decide)
      (by decide) (by decide)⟩

/-! ## The body run for the matched method -/

/-- The five ways the body run for the matched method ends. -/
theorem resolveMatchedMethod_cases (il_frame : ICorDebugILFrame)
    (metadata_import : IMetaDataImport) (method_name : List Nat) (type_def : Nat)
    (document_index : DocumentIndex) (method : MethodInfo) (frame : DbgStackFrame)
    (trace : List Event) :
    ((metadata_import.GetTypeDefProps type_def 0).hr < 0 ∧
      (resolveMatchedMethod il_frame metadata_import method_name type_def document_index
        method frame trace).hr = (metadata_import.GetTypeDefProps type_def 0).hr ∧
      (resolveMatchedMethod il_frame metadata_import method_name type_def document_index
        method frame trace).frame = frame) ∨
    ((metadata_import.GetTypeDefProps type_def
        (metadata_import.GetTypeDefProps type_def 0).name_length).hr < 0 ∧
      (resolveMatchedMethod il_frame metadata_import method_name type_def document_index
        method frame trace).hr = (metadata_import.GetTypeDefProps type_def
          (metadata_import.GetTypeDefProps type_def 0).name_length).hr ∧
      (resolveMatchedMethod il_frame metadata_import method_name type_def document_index
        method frame trace).frame = frame) ∨
    (il_frame.GetIP < 0 ∧
      (resolveMatchedMethod il_frame metadata_import method_name type_def document_index
        method frame trace).hr = il_frame.GetIP) ∨
    (0 ≤ il_frame.GetIP ∧ unmapped il_frame.mapping_result ∧
      (resolveMatchedMethod il_frame metadata_import method_name type_def document_index
        method frame trace).hr = S_FALSE ∧
      (resolveMatchedMethod il_frame metadata_import method_name type_def document_index
        method frame trace).frame =
          namedFrame metadata_import method_name type_def document_index frame) ∨
    (0 ≤ (metadata_import.GetTypeDefProps type_def 0).hr ∧
      0 ≤ (metadata_import.GetTypeDefProps type_def
        (metadata_import.GetTypeDefProps type_def 0).name_length).hr ∧
      0 ≤ il_frame.GetIP ∧ ¬ unmapped il_frame.mapping_result ∧
      ∃ trace2, resolveMatchedMethod il_frame metadata_import method_name type_def
        document_index method frame trace =
          matchSequencePoint il_frame method
            (namedFrame metadata_import method_name type_def document_index frame) trace2) := by
  simp only [resolveMatchedMethod, FAILED, decide_eq_true_eq]
  split_ifs with h1 h2 h3 h4
  · left; exact ⟨h1, rfl, rfl⟩
  · right; left; exact ⟨h2, rfl, rfl⟩
  · right; right; left; exact ⟨h3, rfl⟩
  · right; right; right; left; exact ⟨not_lt.mp h3, h4, rfl, rfl⟩
  · right; right; right; right
    exact ⟨not_lt.mp h1, not_lt.mp h2, not_lt.mp h3, h4, _, rfl⟩

/-- The result code of matching the sequence point is always `S_OK`. -/
theorem matchSequencePoint_hr (il_frame : ICorDebugILFrame) (method : MethodInfo)
    (frame : DbgStackFrame) (trace : List Event) :
    (matchSequencePoint il_frame method frame trace).hr = S_OK := by
  unfold matchSequencePoint
  split <;> rfl

/-- The ways `PopulateLocalVarsAndMethodArgs` ends on non-null arguments: a
failed query on the live token; the outcome of the loop over the documents. -/
theorem populate_cases (target_function_token : Nat) (frame : DbgStackFrame)
    (il_frame : ICorDebugILFrame) (pdb_file : PortablePdbFile) :
    ((∃ size, (pdb_file.metadata_import.GetMethodProps target_function_token size).hr < 0 ∧
        (populateBody target_function_token frame il_frame pdb_file).hr =
          (pdb_file.metadata_import.GetMethodProps target_function_token size).hr) ∧
      (populateBody target_function_token frame il_frame pdb_file).frame = frame) ∨
    ∃ trace, populateBody target_function_token frame il_frame pdb_file =
      documentLoop il_frame pdb_file.metadata_import
        (methodNameOf pdb_file.metadata_import target_function_token)
        (liveSignature pdb_file.metadata_import target_function_token) frame
        pdb_file.document_index_table trace := by
  simp only [populateBody, FAILED, decide_eq_true_eq]
  split_ifs with h1 h2
  · left; exact ⟨⟨0, h1, rfl⟩, rfl⟩
  · left; exact ⟨⟨_, h2, rfl⟩, rfl⟩
  · right; exact ⟨_, rfl⟩

theorem populate_some (target_function_token : Nat) (frame : DbgStackFrame)
    (il_frame : ICorDebugILFrame) (pdb_file : PortablePdbFile) :
    PopulateLocalVarsAndMethodArgs target_function_token (some frame) (some il_frame)
        pdb_file =
      { hr := (populateBody target_function_token frame il_frame pdb_file).hr
        frame := some (populateBody target_function_token frame il_frame pdb_file).frame
        trace := (populateBody target_function_token frame il_frame pdb_file).trace } :=
  rfl

/-! ## Frames without a usable mapping -/

/-- With `GetIP` succeeding on an unusable mapping, resolving a frame returns
`S_FALSE` or the code of a failed metadata query, never another success. -/
theorem populate_unmapped (target_function_token : Nat) (frame : DbgStackFrame)
    (il_frame : ICorDebugILFrame) (pdb_file : PortablePdbFile)
    (h_ip : 0 ≤ il_frame.GetIP) (h_map : unmapped il_frame.mapping_result) :
    ((populateBody target_function_token frame il_frame pdb_file).hr = S_FALSE ∨
      (populateBody target_function_token frame il_frame pdb_file).hr < 0) ∧
    (metadataQueriesSucceed pdb_file target_function_token →
      (populateBody target_function_token frame il_frame pdb_file).hr = S_FALSE) := by
  rcases populate_cases target_function_token frame il_frame pdb_file with
    ⟨⟨size, h1, h2⟩, _⟩ | ⟨trace, h⟩
  · refine ⟨Or.inr (by rw [h2]; exact h1), ?_⟩
    intro hq
    exact absurd (hq.1 size) (not_le.mpr h1)
  · rw [h]
    rcases documentLoop_cases il_frame pdb_file.metadata_import
        (methodNameOf pdb_file.metadata_import target_function_token)
        (liveSignature pdb_file.metadata_import target_function_token) frame
        pdb_file.document_index_table trace with
      ⟨a, _, _⟩ | ⟨doc, hdoc, m, hm, a, b, _⟩ | ⟨doc, hdoc, m, hm, t2, _, _, e⟩
    · exact ⟨Or.inl a, fun _ => a⟩
    · refine ⟨Or.inr (by rw [b]; exact a), ?_⟩
      intro hq
      exact absurd (hq.2 doc hdoc m hm).1 (not_le.mpr a)
    · rw [e]
      rcases resolveMatchedMethod_cases il_frame pdb_file.metadata_import
          (methodNameOf pdb_file.metadata_import target_function_token)
          (pdb_file.metadata_import.GetMethodProps m.method_def 0).type_def doc m frame t2 with
        ⟨a, b, _⟩ | ⟨a, b, _⟩ | ⟨a, _⟩ | ⟨_, _, b, _⟩ | ⟨_, _, _, a, _⟩
      · refine ⟨Or.inr (by rw [b]; exact a), ?_⟩
        intro hq
        exact absurd ((hq.2 doc hdoc m hm).2 _) (not_le.mpr a)
      · refine ⟨Or.inr (by rw [b]; exact a), ?_⟩
        intro hq
        exact absurd ((hq.2 doc hdoc m hm).2 _) (not_le.mpr a)
      · exact absurd h_ip (not_le.mpr a)
      · exact ⟨Or.inl b, fun _ => b⟩
      · exact absurd h_map a

theorem callsGetIP_concat (trace : List Event) (e : Event) (h : ¬ callsGetIP trace)
    (he : e.call ≠ Call.GetIP) : ¬ callsGetIP (trace ++ [e]) := by
  rintro ⟨e2, hmem, hcall⟩
  rcases List.mem_append.mp hmem with h2 | h2
  · exact h ⟨e2, h2, hcall⟩
  · rw [List.mem_singleton.mp h2] at hcall
    exact he hcall

theorem resolveMatchedMethod_getIP (il_frame : ICorDebugILFrame)
    (metadata_import : IMetaDataImport) (method_name : List Nat) (type_def : Nat)
    (document_index : DocumentIndex) (method : MethodInfo) (frame : DbgStackFrame)
    (trace : List Event) (h_ip : 0 ≤ il_frame.GetIP)
    (h_map : unmapped il_frame.mapping_result) (h : ¬ callsGetIP trace) :
    callsGetIP (resolveMatchedMethod il_frame metadata_import method_name type_def
        document_index method frame trace).trace →
      (resolveMatchedMethod il_frame metadata_import method_name type_def document_index
        method frame trace).hr = S_FALSE := by
  have h1 := callsGetIP_concat _
    ⟨Call.GetTypeDefProps type_def 0, (metadata_import.GetTypeDefProps type_def 0).hr⟩ h
    (by simp)
  have h2 := callsGetIP_concat _
    ⟨Call.GetTypeDefProps type_def (metadata_import.GetTypeDefProps type_def 0).name_length,
      (metadata_import.GetTypeDefProps type_def
        (metadata_import.GetTypeDefProps type_def 0).name_length).hr⟩ h1 (by simp)
  simp only [resolveMatchedMethod, FAILED, decide_eq_true_eq]
  split_ifs with a1 a2 a3 a4
  · intro hc; exact absurd hc h1
  · intro hc; exact absurd hc h2
  · exact absurd h_ip (not_le.mpr a3)
  · intro _; rfl
  · exact absurd h_map a4

theorem methodLoop_getIP (il_frame : ICorDebugILFrame) (metadata_import : IMetaDataImport)
    (method_name : List Nat) (signature : Nat) (document_index : DocumentIndex)
    (frame : DbgStackFrame) (h_ip : 0 ≤ il_frame.GetIP)
    (h_map : unmapped il_frame.mapping_result) :
    ∀ (methods : List MethodInfo) (trace : List Event), ¬ callsGetIP trace →
      match methodLoop il_frame metadata_import method_name signature document_index frame
          methods trace with
      | LoopStep.next trace2 => ¬ callsGetIP trace2
      | LoopStep.ret r => callsGetIP r.trace → r.hr = S_FALSE := by
  intro methods
  induction methods with
  | nil => intro trace h; simpa [methodLoop] using h
  | cons m rest ih =>
    intro trace h
    have h1 := callsGetIP_concat _
      ⟨Call.GetMethodProps m.method_def 0, (metadata_import.GetMethodProps m.method_def 0).hr⟩
      h (by simp)
    simp only [methodLoop]
    split_ifs
    · intro hc; exact absurd hc h1
    · exact ih _ h1
    · exact resolveMatchedMethod_getIP _ _ _ _ _ _ _ _ h_ip h_map h1

theorem documentLoop_getIP (il_frame : ICorDebugILFrame) (metadata_import : IMetaDataImport)
    (method_name : List Nat) (signature : Nat) (frame : DbgStackFrame)
    (h_ip : 0 ≤ il_frame.GetIP) (h_map : unmapped il_frame.mapping_result) :
    ∀ (docs : List DocumentIndex) (trace : List Event), ¬ callsGetIP trace →
      callsGetIP
          (documentLoop il_frame metadata_import method_name signature frame docs trace).trace →
        (documentLoop il_frame metadata_import method_name signature frame docs trace).hr
          = S_FALSE := by
  intro docs
  induction docs with
  | nil => intro trace _ _; rfl
  | cons d rest ih =>
    intro trace h
    have hm := methodLoop_getIP il_frame metadata_import method_name signature d frame
      h_ip h_map d.methods trace h
    simp only [documentLoop]
    cases hml : methodLoop il_frame metadata_import method_name signature d frame
        d.methods trace with
    | ret r => rw [hml] at hm; exact hm
    | next t2 => rw [hml] at hm; exact ih t2 hm

/-- Once `GetIP` has been called and has succeeded on an unusable mapping, the
frame is not resolved: `S_FALSE` is returned. -/
theorem populate_getIP (target_function_token : Nat) (frame : DbgStackFrame)
    (il_frame : ICorDebugILFrame) (pdb_file : PortablePdbFile)
    (h_ip : 0 ≤ il_frame.GetIP) (h_map : unmapped il_frame.mapping_result) :
    callsGetIP (populateBody target_function_token frame il_frame pdb_file).trace →
      (populateBody target_function_token frame il_frame pdb_file).hr = S_FALSE := by
  have h0 : ¬ callsGetIP [(⟨Call.GetMetaDataImport, pdb_file.GetMetaDataImport⟩ : Event)] := by
    rintro ⟨e, he, hcall⟩
    rw [List.mem_singleton.mp he] at hcall
    cases hcall
  have h1 := callsGetIP_concat _
    ⟨Call.GetMethodProps target_function_token 0,
      (pdb_file.metadata_import.GetMethodProps target_function_token 0).hr⟩ h0 (by simp)
  have h2 := callsGetIP_concat _
    ⟨Call.GetMethodProps target_function_token
        (pdb_file.metadata_import.GetMethodProps target_function_token 0).name_length,
      (pdb_file.metadata_import.GetMethodProps target_function_token
        (pdb_file.metadata_import.GetMethodProps target_function_token 0).name_length).hr⟩
    h1 (by simp)
  simp only [populateBody]
  split_ifs
  · intro hc; exact absurd hc h1
  · intro hc; exact absurd hc h2
  · exact documentLoop_getIP _ _ _ _ _ h_ip h_map _ _ h2

/-- When resolving the frame never returns `S_OK` or another success than
`S_FALSE`, the loop over the symbol files pushes nothing. -/
theorem pdbLoop_pushes_nothing (target_function_token target_module_token : Nat)
    (il_frame : ICorDebugILFrame)
    (h : ∀ frame pdb_file,
      (populateBody target_function_token frame il_frame pdb_file).hr = S_FALSE ∨
      (populateBody target_function_token frame il_frame pdb_file).hr < 0) :
    ∀ (pdb_files : List PortablePdbFile) (stack_frame : DbgStackFrame) (trace : List Event),
      (pdbLoop target_function_token target_module_token il_frame stack_frame pdb_files
        trace).pushed = none := by
  intro pdb_files
  induction pdb_files with
  | nil => intro _ _; rfl
  | cons p rest ih =>
    intro stack_frame trace
    simp only [pdbLoop, populate_some, FAILED, decide_eq_true_eq]
    split_ifs with h1 h2 h3 h4 h5
    · rfl
    · rfl
    · exact ih _ _
    · exact ih _ _
    · rfl
    · rcases h stack_frame p with a | a
      · exact absurd a h4
      · exact absurd a h5

/-- When every call on the symbol files succeeds and resolving the frame
returns `S_FALSE` for each of them, the loop over the symbol files neither
pushes nor returns. -/
theorem pdbLoop_all_S_FALSE (target_function_token target_module_token : Nat)
    (il_frame : ICorDebugILFrame) :
    ∀ (pdb_files : List PortablePdbFile) (stack_frame : DbgStackFrame) (trace : List Event),
      (∀ pdb ∈ pdb_files, pdb.callsSucceed ∧ ∀ frame,
        (populateBody target_function_token frame il_frame pdb).hr = S_FALSE) →
      (pdbLoop target_function_token target_module_token il_frame stack_frame pdb_files
        trace).pushed = none ∧
      (pdbLoop target_function_token target_module_token il_frame stack_frame pdb_files
        trace).returned = none := by
  intro pdb_files
  induction pdb_files with
  | nil => intro _ _ _; exact ⟨rfl, rfl⟩
  | cons p rest ih =>
    intro stack_frame trace h
    obtain ⟨⟨s1, s2⟩, hp⟩ := h p (List.mem_cons_self _ _)
    have hrest := fun q hq => h q (List.mem_cons_of_mem p hq)
    simp only [pdbLoop, populate_some, FAILED, decide_eq_true_eq, if_neg (not_lt.mpr s1),
      if_neg (not_lt.mpr s2), hp stack_frame, if_true]
    split_ifs
    · exact ih _ _ hrest
    · exact ih _ _ hrest

/-- C7: unmapped frames are omitted, not fatal. For a live frame whose `GetIP`
succeeds with `MAPPING_NO_INFO` or `MAPPING_UNMAPPED_ADDRESS`:
`PopulateLocalVarsAndMethodArgs` returns `S_FALSE` whenever it has called
`GetIP`, and whenever its metadata queries succeed, and never a success other
than `S_FALSE`; the loop over the
symbol files pushes no entry for the frame; and when the calls of the walk at
that position and on the symbol files succeed, `Initialize` goes on with the
next frame and ends as the walk without that frame ends. -/
theorem unmapped_frame_is_omitted (il_frame : ICorDebugILFrame)
    (h_ip : 0 ≤ il_frame.GetIP) (h_map : unmapped il_frame.mapping_result) :
    (∀ token frame pdb_file,
      callsGetIP
        (PopulateLocalVarsAndMethodArgs token (some frame) (some il_frame) pdb_file).trace →
      (PopulateLocalVarsAndMethodArgs token (some frame) (some il_frame) pdb_file).hr
        = S_FALSE) ∧
    (∀ token frame pdb_file, metadataQueriesSucceed pdb_file token →
      (PopulateLocalVarsAndMethodArgs token (some frame) (some il_frame) pdb_file).hr
        = S_FALSE) ∧
    (∀ token frame pdb_file,
      (PopulateLocalVarsAndMethodArgs token (some frame) (some il_frame) pdb_file).hr
        = S_FALSE ∨
      (PopulateLocalVarsAndMethodArgs token (some frame) (some il_frame) pdb_file).hr < 0) ∧
    (∀ pdb_files position, position.il_frame = il_frame →
      frameEntry pdb_files position = none) ∧
    (∀ pdb_files position rest stack_frames_, position.il_frame = il_frame →
      position.callsSucceed →
      (∀ pdb ∈ pdb_files, pdb.callsSucceed ∧
        metadataQueriesSucceed pdb il_frame.function_token.2) →
      (StackFrameCollection.Initialize (some (position :: rest)) pdb_files stack_frames_).hr
        = (StackFrameCollection.Initialize (some rest) pdb_files stack_frames_).hr ∧
      (StackFrameCollection.Initialize (some (position :: rest)) pdb_files
        stack_frames_).stack_frames_
        = (StackFrameCollection.Initialize (some rest) pdb_files
          stack_frames_).stack_frames_) := by
  refine ⟨?_, ?_, ?_, ?_, ?_⟩
  · intro token frame pdb_file hc
    exact populate_getIP token frame il_frame pdb_file h_ip h_map hc
  · intro token frame pdb_file hq
    exact (populate_unmapped token frame il_frame pdb_file h_ip h_map).2 hq
  · intro token frame pdb_file
    exact (populate_unmapped token frame il_frame pdb_file h_ip h_map).1
  · intro pdb_files position hil
    subst hil
    simp only [frameEntry, framePdbLoop]
    split_ifs
    · rfl
    · rfl
    · rfl
    · rfl
    · rfl
    · exact pdbLoop_pushes_nothing _ _ _
        (fun frame pdb_file => (populate_unmapped _ frame _ pdb_file h_ip h_map).1) _ _ _
  · intro pdb_files position rest stack_frames_ hil hc hpdb
    subst hil
    obtain ⟨t2, e⟩ := framePdbLoop_of_callsSucceed pdb_files position [] hc
    have hloop := pdbLoop_all_S_FALSE position.il_frame.function_token.2
      position.il_frame.module_token.2 position.il_frame pdb_files DbgStackFrame.fresh t2
      (fun pdb hp => ⟨(hpdb pdb hp).1, fun frame =>
        (populate_unmapped _ frame _ pdb h_ip h_map).2 (hpdb pdb hp).2⟩)
    rw [← e] at hloop
    obtain ⟨t3, e3⟩ := ((walkLoop_cons pdb_files position rest stack_frames_ [] hc.1
      hc.2.1).2 hloop.2).1 hc.2.2.2.2.2.2.2
    have hentry : frameEntry pdb_files position = none := hloop.1
    rw [hentry] at e3
    simp only [Option.toList, List.append_nil] at e3
    simp only [StackFrameCollection.Initialize]
    rw [e3]
    exact walkLoop_trace_irrelevant pdb_files rest stack_frames_ t3 []

/-- C7, on the sample: the first frame is unmapped, and the walk returns
`S_OK` with the entry of the second frame only. -/
theorem unmapped_frame_is_omitted_witness :
    unmapped (sampleILFrame 0x15
      CorDebugMappingResult.MAPPING_UNMAPPED_ADDRESS).mapping_result ∧
    (StackFrameCollection.Initialize (some unmappedThenMapped) loadedPdbs []).hr = S_OK ∧
    (StackFrameCollection.Initialize (some unmappedThenMapped) loadedPdbs []).stack_frames_ =
      [{ file := "Foo.cs", method := [77, 0], class_name := [65, 0], line_number := 11,
         local_variables := [sampleVariable "x" 0] }] ∧
    (PopulateLocalVarsAndMethodArgs 0x06000001 (some DbgStackFrame.fresh)
      (some (sampleILFrame 0x15 CorDebugMappingResult.MAPPING_UNMAPPED_ADDRESS))
      (samplePdb 1 [sampleMethod threePoints twoScopes])).hr = S_FALSE :=
  ⟨by decide, by decide, by decide,
    ((unmapped_frame_is_omitted
      (sampleILFrame 0x15 CorDebugMappingResult.MAPPING_UNMAPPED_ADDRESS)
      (by decide) (by decide)).2.2.1 0x06000001 DbgStackFrame.fresh
      (samplePdb 1 [sampleMethod threePoints twoScopes])).resolve_right (by decide)⟩

/-! ## Method lookup in document order -/

/-- With its queries succeeding, the loop over the methods of a document runs
the body for the first method with the target signature, or goes on to the
next document when there is none. -/
theorem methodLoop_find (il_frame : ICorDebugILFrame) (metadata_import : IMetaDataImport)
    (method_name : List Nat) (signature : Nat) (document_index : DocumentIndex)
    (frame : DbgStackFrame) :
    ∀ (methods : List MethodInfo) (trace : List Event),
      (∀ m ∈ methods, 0 ≤ (metadata_import.GetMethodProps m.method_def 0).hr) →
      match methods.find? (signatureMatches metadata_import signature) with
      | none => ∃ trace2,
          methodLoop il_frame metadata_import method_name signature document_index frame
            methods trace = LoopStep.next trace2
      | some m => ∃ trace2,
          methodLoop il_frame metadata_import method_name signature document_index frame
            methods trace =
            LoopStep.ret (resolveMatchedMethod il_frame metadata_import method_name
              (metadata_import.GetMethodProps m.method_def 0).type_def document_index m frame
              trace2) := by
  intro methods
  induction methods with
  | nil => intro trace _; exact ⟨trace, rfl⟩
  | cons m0 rest ih =>
    intro trace h
    have h0 := h m0 (List.mem_cons_self _ _)
    by_cases hs : (metadata_import.GetMethodProps m0.method_def 0).signature = signature
    · have hp : signatureMatches metadata_import signature m0 = true := by
        simp [signatureMatches, hs]
      rw [List.find?_cons_of_pos _ hp]
      refine ⟨trace ++ [⟨Call.GetMethodProps m0.method_def 0,
        (metadata_import.GetMethodProps m0.method_def 0).hr⟩], ?_⟩
      simp only [methodLoop, FAILED, decide_eq_true_eq, if_neg (not_lt.mpr h0), ne_eq, hs,
        not_true_eq_false, if_false]
    · have hp : ¬ signatureMatches metadata_import signature m0 = true := by
        simp [signatureMatches, hs]
      rw [List.find?_cons_of_neg _ hp]
      have hstep : methodLoop il_frame metadata_import method_name signature document_index
          frame (m0 :: rest) trace =
          methodLoop il_frame metadata_import method_name signature document_index frame rest
            (trace ++ [⟨Call.GetMethodProps m0.method_def 0,
              (metadata_import.GetMethodProps m0.method_def 0).hr⟩]) := by
        simp only [methodLoop, FAILED, decide_eq_true_eq, if_neg (not_lt.mpr h0), ne_eq, hs,
          not_false_eq_true, if_true]
      rw [hstep]
      exact ih _ (fun m hm => h m (List.mem_cons_of_mem _ hm))

/-- With its queries succeeding, the loop over the documents runs the body for
the first matching method in document order, or returns `S_FALSE` with the
frame untouched when there is none. -/
theorem documentLoop_first (il_frame : ICorDebugILFrame) (metadata_import : IMetaDataImport)
    (method_name : List Nat) (signature : Nat) (frame : DbgStackFrame) :
    ∀ (docs : List DocumentIndex) (trace : List Event),
      (∀ d ∈ docs, ∀ m ∈ d.methods,
        0 ≤ (metadata_import.GetMethodProps m.method_def 0).hr) →
      match firstMatchingMethod metadata_import signature docs with
      | none =>
        (documentLoop il_frame metadata_import method_name signature frame docs trace).hr
          = S_FALSE ∧
        (documentLoop il_frame metadata_import method_name signature frame docs trace).frame
          = frame
      | some (d, m) => ∃ trace2,
          documentLoop il_frame metadata_import method_name signature frame docs trace =
            resolveMatchedMethod il_frame metadata_import method_name
              (metadata_import.GetMethodProps m.method_def 0).type_def d m frame trace2 := by
  intro docs
  induction docs with
  | nil => intro trace _; exact ⟨rfl, rfl⟩
  | cons d rest ih =>
    intro trace h
    have hm := methodLoop_find il_frame metadata_import method_name signature d frame
      d.methods trace (h d (List.mem_cons_self _ _))
    cases hfind : d.methods.find? (signatureMatches metadata_import signature) with
    | some m =>
      rw [hfind] at hm
      obtain ⟨t2, e⟩ := hm
      simp only [firstMatchingMethod, hfind]
      exact ⟨t2, by simp only [documentLoop, e]⟩
    | none =>
      rw [hfind] at hm
      obtain ⟨t2, e⟩ := hm
      simp only [firstMatchingMethod, hfind]
      have hstep : ∀ x, documentLoop il_frame metadata_import method_name signature frame
          (d :: rest) trace = x ↔
          documentLoop il_frame metadata_import method_name signature frame rest t2 = x := by
        intro x
        simp only [documentLoop, e]
      have hstep2 : documentLoop il_frame metadata_import method_name signature frame
          (d :: rest) trace =
          documentLoop il_frame metadata_import method_name signature frame rest t2 :=
        (hstep _).mpr rfl
      rw [hstep2]
      exact ih t2 (fun d2 hd2 => h d2 (List.mem_cons_of_mem _ hd2))

/-- The method `firstMatchingMethod` finds is the first with the signature:
no method of an earlier document, and no earlier method of its document, has
it. -/
theorem firstMatchingMethod_some (metadata_import : IMetaDataImport) (signature : Nat) :
    ∀ (docs : List DocumentIndex) (d : DocumentIndex) (m : MethodInfo),
      firstMatchingMethod metadata_import signature docs = some (d, m) →
      (metadata_import.GetMethodProps m.method_def 0).signature = signature ∧
      ∃ before after earlier later,
        docs = before ++ d :: after ∧ d.methods = earlier ++ m :: later ∧
        (∀ d2 ∈ before, ∀ m2 ∈ d2.methods,
          (metadata_import.GetMethodProps m2.method_def 0).signature ≠ signature) ∧
        ∀ m2 ∈ earlier,
          (metadata_import.GetMethodProps m2.method_def 0).signature ≠ signature := by
  intro docs
  induction docs with
  | nil => intro d m h; simp [firstMatchingMethod] at h
  | cons d0 rest ih =>
    intro d m h
    cases hfind : d0.methods.find? (signatureMatches metadata_import signature) with
    | some m0 =>
      simp only [firstMatchingMethod, hfind, Option.some.injEq, Prod.mk.injEq] at h
      obtain ⟨rfl, rfl⟩ := h
      obtain ⟨hp, earlier, later, hsplit, hearlier⟩ := List.find?_eq_some.mp hfind
      refine ⟨by simpa [signatureMatches] using hp, [], rest, earlier, later, rfl, hsplit,
        (fun d2 hd2 => by cases hd2), ?_⟩
      intro m2 hm2
      simpa [signatureMatches] using hearlier m2 hm2
    | none =>
      simp only [firstMatchingMethod, hfind] at h
      obtain ⟨hsig, before, after, earlier, later, h1, h2, h3, h4⟩ := ih d m h
      refine ⟨hsig, d0 :: before, after, earlier, later, by rw [h1]; rfl, h2, ?_, h4⟩
      intro d2 hd2 m2 hm2
      rcases List.mem_cons.mp hd2 with rfl | hmem
      · simpa [signatureMatches] using List.find?_eq_none.mp hfind m2 hm2
      · exact h3 d2 hmem m2 hm2

/-- When `firstMatchingMethod` finds nothing, no method of the symbol file has
the signature. -/
theorem firstMatchingMethod_none (metadata_import : IMetaDataImport) (signature : Nat) :
    ∀ (docs : List DocumentIndex),
      firstMatchingMethod metadata_import signature docs = none →
      ∀ d ∈ docs, ∀ m ∈ d.methods,
        (metadata_import.GetMethodProps m.method_def 0).signature ≠ signature := by
  intro docs
  induction docs with
  | nil => intro _ d hd; cases hd
  | cons d0 rest ih =>
    intro h d hd m hm
    cases hfind : d0.methods.find? (signatureMatches metadata_import signature) with
    | some m0 => simp [firstMatchingMethod, hfind] at h
    | none =>
      simp only [firstMatchingMethod, hfind] at h
      rcases List.mem_cons.mp hd with rfl | hmem
      · simpa [signatureMatches] using List.find?_eq_none.mp hfind m hm
      · exact ih h d hmem m hm

/-! ## Frames whose method has no qualifying sequence point -/

theorem matchSequencePoint_of_none_qualifies (il_frame : ICorDebugILFrame)
    (method : MethodInfo) (frame : DbgStackFrame) (trace : List Event)
    (h : ∀ sp ∈ method.sequence_points, sp.is_hidden = false →
      ¬ sp.il_offset ≤ il_frame.ip_offset) :
    matchSequencePoint il_frame method frame trace =
      { hr := S_OK, frame := frame, trace := trace } := by
  cases hm : matchedSequencePoint method.sequence_points il_frame.ip_offset with
  | none => simp [matchSequencePoint, hm]
  | some sp =>
    obtain ⟨j, hj, hh, hle, _⟩ := matchedSequencePoint_some _ _ sp hm
    exact absurd hle (h sp (List.mem_iff_getElem?.mpr ⟨j, hj⟩) hh)

theorem pdbLoop_skip (target_function_token target_module_token : Nat)
    (il_frame : ICorDebugILFrame) (rest : List PortablePdbFile) :
    ∀ (before : List PortablePdbFile) (stack_frame : DbgStackFrame) (trace : List Event),
      (∀ pdb ∈ before, pdb.callsSucceed ∧ pdb.debug_module_token.2 ≠ target_module_token) →
      ∃ trace2,
        pdbLoop target_function_token target_module_token il_frame stack_frame
            (before ++ rest) trace =
          pdbLoop target_function_token target_module_token il_frame stack_frame rest
            trace2 := by
  intro before
  induction before with
  | nil => intro stack_frame trace _; exact ⟨trace, rfl⟩
  | cons p more ih =>
    intro stack_frame trace h
    obtain ⟨⟨s1, s2⟩, hne⟩ := h p (List.mem_cons_self _ _)
    have hne2 : target_module_token ≠ p.debug_module_token.2 := fun e => hne e.symm
    obtain ⟨t2, e⟩ := ih stack_frame
      (trace ++ [⟨Call.GetDebugModule, p.GetDebugModule⟩] ++
        [⟨Call.PdbModuleGetToken, p.debug_module_token.1⟩])
      (fun q hq => h q (List.mem_cons_of_mem _ hq))
    refine ⟨t2, ?_⟩
    rw [← e]
    simp only [List.cons_append, pdbLoop, FAILED, decide_eq_true_eq, if_neg (not_lt.mpr s1),
      if_neg (not_lt.mpr s2), if_pos hne2]
    rfl

theorem pdbLoop_push (target_function_token target_module_token : Nat)
    (il_frame : ICorDebugILFrame) (pdb_file : PortablePdbFile)
    (others : List PortablePdbFile) (stack_frame : DbgStackFrame) (trace : List Event)
    (hc : pdb_file.callsSucceed) (ht : pdb_file.debug_module_token.2 = target_module_token)
    (hr : (populateBody target_function_token stack_frame il_frame pdb_file).hr = S_OK) :
    (pdbLoop target_function_token target_module_token il_frame stack_frame
        (pdb_file :: others) trace).pushed =
      some (populateBody target_function_token stack_frame il_frame pdb_file).frame ∧
    (pdbLoop target_function_token target_module_token il_frame stack_frame
        (pdb_file :: others) trace).returned = none := by
  obtain ⟨s1, s2⟩ := hc
  have h1 : ¬ S_OK = S_FALSE := by decide
  have h2 : ¬ S_OK < 0 := by decide
  simp only [pdbLoop, populate_some, FAILED, decide_eq_true_eq, if_neg (not_lt.mpr s1),
    if_neg (not_lt.mpr s2), ht, ne_eq, not_true_eq_false, if_false, hr, if_neg h1, if_neg h2,
    Option.getD_some]
  exact ⟨rfl, rfl⟩

theorem walkLoop_extends (pdb_files : List PortablePdbFile) :
    ∀ (walk : ICorDebugStackWalk) (stack_frames_ : List DbgStackFrame) (trace : List Event),
      ∃ tail, (walkLoop pdb_files walk stack_frames_ trace).stack_frames_ =
        stack_frames_ ++ tail := by
  intro walk
  induction walk with
  | nil => intro stack_frames_ trace; exact ⟨[], by simp [walkLoop]⟩
  | cons position rest ih =>
    intro stack_frames_ trace
    by_cases h1 : position.GetFrame = S_FALSE
    · exact ⟨[], by simp [walkLoop, h1]⟩
    by_cases h2 : position.GetFrame < 0
    · exact ⟨[], by simp [walkLoop, h1, FAILED, h2]⟩
    have c := walkLoop_cons pdb_files position rest stack_frames_ trace h1 (not_lt.mp h2)
    cases hret : (framePdbLoop pdb_files position []).returned with
    | some hr => exact ⟨[], by rw [(c.1 hr hret).2]; simp⟩
    | none =>
      by_cases hn : 0 ≤ position.Next
      · obtain ⟨t2, e⟩ := (c.2 hret).1 hn
        obtain ⟨tail, htail⟩ := ih (stack_frames_ ++ (frameEntry pdb_files position).toList) t2
        exact ⟨(frameEntry pdb_files position).toList ++ tail, by
          rw [e, htail, List.append_assoc]⟩
      · exact ⟨(frameEntry pdb_files position).toList, ((c.2 hret).2 (not_le.mp hn)).2⟩

/-- With its metadata queries succeeding, a method with the live signature in
the symbol file, a usable mapping and no qualifying sequence point in any such
method, resolving the frame returns `S_OK` with only the names set. -/
theorem populate_without_sequence_point (target_function_token : Nat)
    (frame : DbgStackFrame) (il_frame : ICorDebugILFrame) (pdb_file : PortablePdbFile)
    (h_meta : metadataQueriesSucceed pdb_file target_function_token)
    (h_found : ∃ doc ∈ pdb_file.document_index_table, ∃ m ∈ doc.methods,
      (pdb_file.metadata_import.GetMethodProps m.method_def 0).signature =
        liveSignature pdb_file.metadata_import target_function_token)
    (h_ip : 0 ≤ il_frame.GetIP) (h_map : ¬ unmapped il_frame.mapping_result)
    (h_none : ∀ doc ∈ pdb_file.document_index_table, ∀ m ∈ doc.methods,
      (pdb_file.metadata_import.GetMethodProps m.method_def 0).signature =
        liveSignature pdb_file.metadata_import target_function_token →
      ∀ sp ∈ m.sequence_points, sp.is_hidden = false → ¬ sp.il_offset ≤ il_frame.ip_offset) :
    (populateBody target_function_token frame il_frame pdb_file).hr = S_OK ∧
    ∃ doc ∈ pdb_file.document_index_table, ∃ m ∈ doc.methods,
      (pdb_file.metadata_import.GetMethodProps m.method_def 0).signature =
        liveSignature pdb_file.metadata_import target_function_token ∧
      (populateBody target_function_token frame il_frame pdb_file).frame =
        namedFrame pdb_file.metadata_import
          (methodNameOf pdb_file.metadata_import target_function_token)
          (pdb_file.metadata_import.GetMethodProps m.method_def 0).type_def doc frame := by
  rcases populate_cases target_function_token frame il_frame pdb_file with
    ⟨⟨size, h1, _⟩, _⟩ | ⟨trace, h⟩
  · exact absurd (h_meta.1 size) (not_le.mpr h1)
  rw [h]
  rcases documentLoop_cases il_frame pdb_file.metadata_import
      (methodNameOf pdb_file.metadata_import target_function_token)
      (liveSignature pdb_file.metadata_import target_function_token) frame
      pdb_file.document_index_table trace with
    ⟨_, _, a⟩ | ⟨doc, hdoc, m, hm, a, _, _⟩ | ⟨doc, hdoc, m, hm, t2, _, hsig, e⟩
  · obtain ⟨doc, hdoc, m, hm, hsig⟩ := h_found
    exact absurd hsig (a doc hdoc m hm).2
  · exact absurd (h_meta.2 doc hdoc m hm).1 (not_le.mpr a)
  · rw [e]
    rcases resolveMatchedMethod_cases il_frame pdb_file.metadata_import
        (methodNameOf pdb_file.metadata_import target_function_token)
        (pdb_file.metadata_import.GetMethodProps m.method_def 0).type_def doc m frame t2 with
      ⟨a, _⟩ | ⟨a, _⟩ | ⟨a, _⟩ | ⟨_, a, _⟩ | ⟨_, _, _, _, t3, e3⟩
    · exact absurd ((h_meta.2 doc hdoc m hm).2 _) (not_le.mpr a)
    · exact absurd ((h_meta.2 doc hdoc m hm).2 _) (not_le.mpr a)
    · exact absurd h_ip (not_le.mpr a)
    · exact absurd a h_map
    · rw [e3, matchSequencePoint_of_none_qualifies _ _ _ _ (h_none doc hdoc m hm hsig)]
      exact ⟨rfl, doc, hdoc, m, hm, hsig, rfl⟩

/-- The metadata queries made for the sample method against the sample symbol
file succeed. -/
theorem samplePdb_queries_succeed (sequence_points : List SequencePoint)
    (local_scope : List LocalScopeInfo) :
    metadataQueriesSucceed (samplePdb 1 [sampleMethod sequence_points local_scope])
      0x06000001 := by
  constructor
  · intro size
    simp [samplePdb, sampleImport, S_OK]
  · intro doc hdoc m hm
    simp only [samplePdb, List.mem_singleton] at hdoc
    subst hdoc
    simp only [List.mem_singleton] at hm
    subst hm
    simp [samplePdb, sampleImport, sampleMethod, S_OK]

/-- C5, as the claim states it, fails: the module of the frame has a symbol
file, its method is found and its mapping is exact, the only sequence point of
the method is hidden, and `Initialize` still adds an entry for the frame. -/
theorem frame_without_sequence_point_counterexample :
    (∀ sp ∈ (sampleMethod onlyHidden twoScopes).sequence_points,
      ¬ (sp.is_hidden = false ∧ sp.il_offset ≤ 0x15)) ∧
    (StackFrameCollection.Initialize
      (some [samplePosition (sampleILFrame 0x15 CorDebugMappingResult.MAPPING_EXACT)])
      [samplePdb 1 [sampleMethod onlyHidden twoScopes]] []).hr = S_OK ∧
    (StackFrameCollection.Initialize
      (some [samplePosition (sampleILFrame 0x15 CorDebugMappingResult.MAPPING_EXACT)])
      [samplePdb 1 [sampleMethod onlyHidden twoScopes]] []).stack_frames_ =
      [{ file := "Foo.cs", method := [77, 0], class_name := [65, 0], line_number := 0,
         local_variables := [] }] ∧
    (StackFrameCollection.Initialize
      (some [samplePosition (sampleILFrame 0x15 CorDebugMappingResult.MAPPING_EXACT)])
      [samplePdb 1 [sampleMethod onlyHidden twoScopes]] []).stack_frames_ ≠ [] := by
  decide

/-- With its metadata queries succeeding, a usable mapping and no qualifying
sequence point in the methods with the live signature, resolving the frame
returns `S_OK` with the frame named after the first method with that signature,
in document order, and nothing else set. -/
theorem populate_without_sequence_point_first (target_function_token : Nat)
    (frame : DbgStackFrame) (il_frame : ICorDebugILFrame) (pdb_file : PortablePdbFile)
    (d : DocumentIndex) (m : MethodInfo)
    (h_meta : metadataQueriesSucceed pdb_file target_function_token)
    (h_first : firstMatchingMethod pdb_file.metadata_import
      (liveSignature pdb_file.metadata_import target_function_token)
      pdb_file.document_index_table = some (d, m))
    (h_ip : 0 ≤ il_frame.GetIP) (h_map : ¬ unmapped il_frame.mapping_result)
    (h_none : ∀ doc ∈ pdb_file.document_index_table, ∀ m ∈ doc.methods,
      (pdb_file.metadata_import.GetMethodProps m.method_def 0).signature =
        liveSignature pdb_file.metadata_import target_function_token →
      ∀ sp ∈ m.sequence_points, sp.is_hidden = false → ¬ sp.il_offset ≤ il_frame.ip_offset) :
    (populateBody target_function_token frame il_frame pdb_file).hr = S_OK ∧
    (populateBody target_function_token frame il_frame pdb_file).frame =
      namedFrame pdb_file.metadata_import
        (methodNameOf pdb_file.metadata_import target_function_token)
        (pdb_file.metadata_import.GetMethodProps m.method_def 0).type_def d frame := by
  obtain ⟨hsig, before, after, earlier, later, hdocs, hmethods, _, _⟩ :=
    firstMatchingMethod_some _ _ _ d m h_first
  have hd : d ∈ pdb_file.document_index_table := by rw [hdocs]; simp
  have hm : m ∈ d.methods := by rw [hmethods]; simp
  rcases populate_cases target_function_token frame il_frame pdb_file with
    ⟨⟨size, h1, _⟩, _⟩ | ⟨trace, e⟩
  · exact absurd (h_meta.1 size) (not_le.mpr h1)
  have hloop := documentLoop_first il_frame pdb_file.metadata_import
    (methodNameOf pdb_file.metadata_import target_function_token)
    (liveSignature pdb_file.metadata_import target_function_token) frame
    pdb_file.document_index_table trace
    (fun d2 hd2 m2 hm2 => (h_meta.2 d2 hd2 m2 hm2).1)
  rw [h_first] at hloop
  obtain ⟨t2, e2⟩ := hloop
  rw [e, e2]
  rcases resolveMatchedMethod_cases il_frame pdb_file.metadata_import
      (methodNameOf pdb_file.metadata_import target_function_token)
      (pdb_file.metadata_import.GetMethodProps m.method_def 0).type_def d m frame t2 with
    ⟨a, _⟩ | ⟨a, _⟩ | ⟨a, _⟩ | ⟨_, a, _⟩ | ⟨_, _, _, _, t3, e3⟩
  · exact absurd ((h_meta.2 d hd m hm).2 _) (not_le.mpr a)
  · exact absurd ((h_meta.2 d hd m hm).2 _) (not_le.mpr a)
  · exact absurd h_ip (not_le.mpr a)
  · exact absurd a h_map
  · rw [e3, matchSequencePoint_of_none_qualifies _ _ _ _ (h_none d hd m hm hsig)]
    exact ⟨rfl, rfl⟩

/-- C5, amended: a frame with no qualifying sequence point is kept, without a
line. For a live frame at which the calls of the walk succeed, whose module
has a symbol file (the first with its module token in `pdb_files`), whose
metadata queries succeed, whose signature is that of a method of the file and
whose mapping is usable, but none of whose methods with that signature has a
non-hidden sequence point at or before the instruction offset:
`PopulateLocalVarsAndMethodArgs` returns `S_OK` having set the file of the
frame to the path of the document of the first method with that signature,
its method name to the name of the live method and its class name to the name
of the declaring type of that first method, but neither its line number nor
its variables, and `Initialize` adds that entry to `stack_frames_`. -/
theorem frame_without_sequence_point_is_kept (position : StackWalkPosition)
    (rest : ICorDebugStackWalk) (before : List PortablePdbFile) (pdb_file : PortablePdbFile)
    (others : List PortablePdbFile) (stack_frames_ : List DbgStackFrame)
    (h_walk : position.callsSucceed)
    (h_before : ∀ q ∈ before,
      q.callsSucceed ∧ q.debug_module_token.2 ≠ position.il_frame.module_token.2)
    (h_pdb : pdb_file.callsSucceed)
    (h_module : pdb_file.debug_module_token.2 = position.il_frame.module_token.2)
    (h_meta : metadataQueriesSucceed pdb_file position.il_frame.function_token.2)
    (h_found : ∃ doc ∈ pdb_file.document_index_table, ∃ m ∈ doc.methods,
      (pdb_file.metadata_import.GetMethodProps m.method_def 0).signature =
        liveSignature pdb_file.metadata_import position.il_frame.function_token.2)
    (h_ip : 0 ≤ position.il_frame.GetIP)
    (h_map : ¬ unmapped position.il_frame.mapping_result)
    (h_none : ∀ doc ∈ pdb_file.document_index_table, ∀ m ∈ doc.methods,
      (pdb_file.metadata_import.GetMethodProps m.method_def 0).signature =
        liveSignature pdb_file.metadata_import position.il_frame.function_token.2 →
      ∀ sp ∈ m.sequence_points, sp.is_hidden = false →
        ¬ sp.il_offset ≤ position.il_frame.ip_offset) :
    (PopulateLocalVarsAndMethodArgs position.il_frame.function_token.2
      (some DbgStackFrame.fresh) (some position.il_frame) pdb_file).hr = S_OK ∧
    ∃ (d : DocumentIndex) (m : MethodInfo) (entry : DbgStackFrame),
      firstMatchingMethod pdb_file.metadata_import
        (liveSignature pdb_file.metadata_import position.il_frame.function_token.2)
        pdb_file.document_index_table = some (d, m) ∧
      (PopulateLocalVarsAndMethodArgs position.il_frame.function_token.2
        (some DbgStackFrame.fresh) (some position.il_frame) pdb_file).frame = some entry ∧
      (∃ doc ∈ pdb_file.document_index_table, entry.file = doc.file_path) ∧
      entry.file = d.file_path ∧
      entry.method =
        methodNameOf pdb_file.metadata_import position.il_frame.function_token.2 ∧
      entry.class_name = typeNameOf pdb_file.metadata_import
        (pdb_file.metadata_import.GetMethodProps m.method_def 0).type_def ∧
      entry.line_number = DbgStackFrame.fresh.line_number ∧
      entry.local_variables = DbgStackFrame.fresh.local_variables ∧
      entry = { file := d.file_path,
                method := methodNameOf pdb_file.metadata_import
                  position.il_frame.function_token.2,
                class_name := typeNameOf pdb_file.metadata_import
                  (pdb_file.metadata_import.GetMethodProps m.method_def 0).type_def,
                line_number := DbgStackFrame.fresh.line_number,
                local_variables := DbgStackFrame.fresh.local_variables } ∧
      frameEntry (before ++ pdb_file :: others) position = some entry ∧
      ∃ tail,
        (StackFrameCollection.Initialize (some (position :: rest))
          (before ++ pdb_file :: others) stack_frames_).stack_frames_ =
          stack_frames_ ++ entry :: tail := by
  -- the first method with the live signature, in document order
  obtain ⟨d, m, hfirst⟩ : ∃ d m, firstMatchingMethod pdb_file.metadata_import
      (liveSignature pdb_file.metadata_import position.il_frame.function_token.2)
      pdb_file.document_index_table = some (d, m) := by
    cases hf : firstMatchingMethod pdb_file.metadata_import
        (liveSignature pdb_file.metadata_import position.il_frame.function_token.2)
        pdb_file.document_index_table with
    | none =>
      obtain ⟨doc, hdoc, m0, hm0, hsig⟩ := h_found
      exact absurd hsig (firstMatchingMethod_none _ _ _ hf doc hdoc m0 hm0)
    | some dm => exact ⟨dm.1, dm.2, rfl⟩
  obtain ⟨_, before_docs, after_docs, _, _, hdocs, _, _, _⟩ :=
    firstMatchingMethod_some _ _ _ d m hfirst
  have hd : d ∈ pdb_file.document_index_table := by rw [hdocs]; simp
  obtain ⟨hhr, hframe⟩ :=
    populate_without_sequence_point_first position.il_frame.function_token.2
      DbgStackFrame.fresh position.il_frame pdb_file d m h_meta hfirst h_ip h_map h_none
  -- the loop over the symbol files pushes the frame
  obtain ⟨t1, e1⟩ := framePdbLoop_of_callsSucceed (before ++ pdb_file :: others) position []
    h_walk
  obtain ⟨t2, e2⟩ := pdbLoop_skip position.il_frame.function_token.2
    position.il_frame.module_token.2 position.il_frame (pdb_file :: others) before
    DbgStackFrame.fresh t1 h_before
  obtain ⟨hpush, hret⟩ := pdbLoop_push position.il_frame.function_token.2
    position.il_frame.module_token.2 position.il_frame pdb_file others DbgStackFrame.fresh t2
    h_pdb h_module hhr
  rw [← e2, ← e1] at hpush hret
  have hentry : frameEntry (before ++ pdb_file :: others) position =
      some (populateBody position.il_frame.function_token.2 DbgStackFrame.fresh
        position.il_frame pdb_file).frame := hpush
  refine ⟨hhr, d, m, _, hfirst, rfl, ⟨d, hd, by rw [hframe]; rfl⟩, by rw [hframe]; rfl,
    by rw [hframe]; rfl, by rw [hframe]; rfl, by rw [hframe]; rfl, by rw [hframe]; rfl,
    by rw [hframe]; rfl, hentry, ?_⟩
  obtain ⟨t3, e3⟩ := ((walkLoop_cons (before ++ pdb_file :: others) position rest
    stack_frames_ [] h_walk.1 h_walk.2.1).2 hret).1 h_walk.2.2.2.2.2.2.2
  obtain ⟨tail, htail⟩ := walkLoop_extends (before ++ pdb_file :: others) rest
    (stack_frames_ ++ (frameEntry (before ++ pdb_file :: others) position).toList) t3
  refine ⟨tail, ?_⟩
  simp only [StackFrameCollection.Initialize]
  rw [e3, htail, hentry]
  simp

/-- C5, amended, on the sample: the frame of a method whose only sequence
point is hidden is kept, as `A.M` in `Foo.cs`, without a line and without
variables. -/
theorem frame_without_sequence_point_is_kept_witness :
    (StackFrameCollection.Initialize
      (some (samplePosition (sampleILFrame 0x15 CorDebugMappingResult.MAPPING_EXACT) :: []))
      ([] ++ samplePdb 1 [sampleMethod onlyHidden twoScopes] :: []) []).stack_frames_ =
      [{ file := "Foo.cs", method := [77, 0], class_name := [65, 0], line_number := 0,
         local_variables := [] }] ∧
    typeNameOf sampleImport 0x02000002 = [65, 0] ∧
    ((PopulateLocalVarsAndMethodArgs 0x06000001 (some DbgStackFrame.fresh)
      (some (sampleILFrame 0x15 CorDebugMappingResult.MAPPING_EXACT))
      (samplePdb 1 [sampleMethod onlyHidden twoScopes])).hr = S_OK ∧
    ∃ (d : DocumentIndex) (m : MethodInfo) (entry : DbgStackFrame),
      firstMatchingMethod sampleImport (liveSignature sampleImport 0x06000001)
        (samplePdb 1 [sampleMethod onlyHidden twoScopes]).document_index_table
        = some (d, m) ∧
      (PopulateLocalVarsAndMethodArgs 0x06000001 (some DbgStackFrame.fresh)
        (some (sampleILFrame 0x15 CorDebugMappingResult.MAPPING_EXACT))
        (samplePdb 1 [sampleMethod onlyHidden twoScopes])).frame = some entry ∧
      (∃ doc ∈ (samplePdb 1 [sampleMethod onlyHidden twoScopes]).document_index_table,
        entry.file = doc.file_path) ∧
      entry.file = d.file_path ∧
      entry.method = methodNameOf sampleImport 0x06000001 ∧
      entry.class_name = typeNameOf sampleImport
        (sampleImport.GetMethodProps m.method_def 0).type_def ∧
      entry.line_number = DbgStackFrame.fresh.line_number ∧
      entry.local_variables = DbgStackFrame.fresh.local_variables ∧
      entry = { file := d.file_path,
                method := methodNameOf sampleImport 0x06000001,
                class_name := typeNameOf sampleImport
                  (sampleImport.GetMethodProps m.method_def 0).type_def,
                line_number := DbgStackFrame.fresh.line_number,
                local_variables := DbgStackFrame.fresh.local_variables } ∧
      frameEntry ([] ++ samplePdb 1 [sampleMethod onlyHidden twoScopes] :: [])
        (samplePosition (sampleILFrame 0x15 CorDebugMappingResult.MAPPING_EXACT))
        = some entry ∧
      ∃ tail,
        (StackFrameCollection.Initialize
          (some (samplePosition (sampleILFrame 0x15 CorDebugMappingResult.MAPPING_EXACT)
            :: []))
          ([] ++ samplePdb 1 [sampleMethod onlyHidden twoScopes] :: []) []).stack_frames_ =
          [] ++ entry :: tail) :=
  ⟨by decide, by decide,
    frame_without_sequence_point_is_kept
      (samplePosition (sampleILFrame 0x15 CorDebugMappingResult.MAPPING_EXACT)) [] []
      (samplePdb 1 [sampleMethod onlyHidden twoScopes]) [] []
      (by decide) (by decide) (by decide) (by decide)
      (samplePdb_queries_succeed onlyHidden twoScopes) (by decide) (by decide) (by decide)
      (by decide)⟩

/-! ## Failures while resolving one frame -/

/-- C9, at the failing input: `DbgStackFrame::Initialize` fails with `E_FAIL`
while binding the variables, and `PopulateLocalVarsAndMethodArgs` returns
`S_OK`, so that `Initialize` returns `S_OK` and adds the frame; likewise when
`GetMetaDataImport` fails, its code is overwritten and `S_OK` is returned. -/
theorem populate_drops_failures :
    (⟨Call.DbgStackFrameInitialize, E_FAIL⟩ : Event) ∈
      (PopulateLocalVarsAndMethodArgs 0x06000001 (some DbgStackFrame.fresh)
        (some failingBindFrame) (samplePdb 1 [sampleMethod threePoints twoScopes])).trace ∧
    (PopulateLocalVarsAndMethodArgs 0x06000001 (some DbgStackFrame.fresh)
      (some failingBindFrame) (samplePdb 1 [sampleMethod threePoints twoScopes])).hr = S_OK ∧
    (StackFrameCollection.Initialize (some [samplePosition failingBindFrame])
      loadedPdbs []).hr = S_OK ∧
    (StackFrameCollection.Initialize (some [samplePosition failingBindFrame])
      loadedPdbs []).stack_frames_.length = 1 ∧
    (⟨Call.GetMetaDataImport, E_FAIL⟩ : Event) ∈
      (PopulateLocalVarsAndMethodArgs 0x06000001 (some DbgStackFrame.fresh)
        (some (sampleILFrame 0x15 CorDebugMappingResult.MAPPING_EXACT))
        failingImportPdb).trace ∧
    (PopulateLocalVarsAndMethodArgs 0x06000001 (some DbgStackFrame.fresh)
      (some (sampleILFrame 0x15 CorDebugMappingResult.MAPPING_EXACT))
      failingImportPdb).hr = S_OK := by
  decide

/-! ## The names reported for a frame -/

theorem matchSequencePoint_names (il_frame : ICorDebugILFrame) (method : MethodInfo)
    (frame : DbgStackFrame) (trace : List Event) :
    (matchSequencePoint il_frame method frame trace).frame.file = frame.file ∧
    (matchSequencePoint il_frame method frame trace).frame.method = frame.method ∧
    (matchSequencePoint il_frame method frame trace).frame.class_name = frame.class_name := by
  unfold matchSequencePoint
  split <;> exact ⟨rfl, rfl, rfl⟩

/-- When `PopulateStackFrame` succeeds on every stored frame, the loop runs to
its end, appends one record per frame, in order, and makes the two calls of
each frame, in order. -/
theorem printLoop_of_succeed (eval_coordinator : EvalCoordinator) :
    ∀ (frames : List DbgStackFrame) (breakpoint : Breakpoint) (trace : List PrintCall),
      (∀ f ∈ frames, 0 ≤ (eval_coordinator.PopulateStackFrame f).1) →
      printLoop eval_coordinator frames breakpoint trace =
        { returned := none
          breakpoint := { breakpoint with
            stack_frames := breakpoint.stack_frames ++ frames.map (emittedRecord eval_coordinator) }
          trace := trace ++ frames.flatMap (frameCalls eval_coordinator) } := by
  intro frames
  induction frames with
  | nil => intro breakpoint trace _; simp [printLoop]
  | cons f rest ih =>
    intro breakpoint trace h
    have hf := h f (List.mem_cons_self _ _)
    simp only [printLoop, StackFrame.mutable_location, FAILED, decide_eq_true_eq,
      if_neg (not_lt.mpr hf)]
    rw [ih _ _ (fun g hg => h g (List.mem_cons_of_mem _ hg))]
    simp [Breakpoint.withFrame, emittedRecord, frameCalls, StackFrame.empty,
      List.flatMap_cons]

/-- When the loop returns from inside, the code is a failure reported by
`PopulateStackFrame` on one of the stored frames. -/
theorem printLoop_returned (eval_coordinator : EvalCoordinator) :
    ∀ (frames : List DbgStackFrame) (breakpoint : Breakpoint) (trace : List PrintCall)
      (hr : HRESULT),
      (printLoop eval_coordinator frames breakpoint trace).returned = some hr →
      hr < 0 ∧ ∃ f ∈ frames, (eval_coordinator.PopulateStackFrame f).1 = hr := by
  intro frames
  induction frames with
  | nil => intro _ _ _ h; simp [printLoop] at h
  | cons f rest ih =>
    intro breakpoint trace hr h
    simp only [printLoop, StackFrame.mutable_location, FAILED, decide_eq_true_eq] at h
    split_ifs at h with hf
    · simp only [Option.some.injEq] at h
      subst h
      exact ⟨hf, f, List.mem_cons_self _ _, rfl⟩
    · obtain ⟨a, g, hg, b⟩ := ih _ _ hr h
      exact ⟨a, g, List.mem_cons_of_mem _ hg, b⟩

/-- When the loop runs to its end, `PopulateStackFrame` has succeeded on every
stored frame. -/
theorem printLoop_none (eval_coordinator : EvalCoordinator) :
    ∀ (frames : List DbgStackFrame) (breakpoint : Breakpoint) (trace : List PrintCall),
      (printLoop eval_coordinator frames breakpoint trace).returned = none →
      ∀ f ∈ frames, 0 ≤ (eval_coordinator.PopulateStackFrame f).1 := by
  intro frames
  induction frames with
  | nil => intro _ _ _ f hf; cases hf
  | cons f rest ih =>
    intro breakpoint trace h g hg
    simp only [printLoop, StackFrame.mutable_location, FAILED, decide_eq_true_eq] at h
    split_ifs at h with hf
    rcases List.mem_cons.mp hg with rfl | hmem
    · exact not_lt.mp hf
    · exact ih _ _ h g hmem

/-- The loop only extends the trace, and with none of the two signals. -/
theorem printLoop_calls (eval_coordinator : EvalCoordinator) :
    ∀ (frames : List DbgStackFrame) (breakpoint : Breakpoint) (trace : List PrintCall),
      ∃ calls, (printLoop eval_coordinator frames breakpoint trace).trace = trace ++ calls ∧
        LoopCallsOnly calls := by
  intro frames
  induction frames with
  | nil =>
    intro breakpoint trace
    exact ⟨[], by simp [printLoop], fun c hc => by cases hc⟩
  | cons f rest ih =>
    intro breakpoint trace
    have hpair : LoopCallsOnly (frameCalls eval_coordinator f) := by
      intro c hc
      simp only [frameCalls, List.mem_cons, List.mem_singleton, List.not_mem_nil,
        or_false] at hc
      rcases hc with rfl | rfl <;> simp
    simp only [printLoop, StackFrame.mutable_location, FAILED, decide_eq_true_eq]
    split_ifs with hf
    · exact ⟨frameCalls eval_coordinator f, by simp [frameCalls], hpair⟩
    · obtain ⟨calls, e, hc⟩ := ih (breakpoint.withFrame
        { method_name := f.GetClass ++ "." ++ f.GetMethod,
          location := some { path := f.GetFile, line := f.GetLineNumber },
          locals := StackFrame.empty.locals ++ (eval_coordinator.PopulateStackFrame f).2 })
        (trace ++ [PrintCall.add_stack_frames] ++
          [PrintCall.PopulateStackFrame (eval_coordinator.PopulateStackFrame f).1])
      refine ⟨frameCalls eval_coordinator f ++ calls, ?_, ?_⟩
      · simp only [StackFrame.empty, Option.getD_none] at e ⊢
        rw [e]
        simp [frameCalls]
      · intro c hmem
        rcases List.mem_append.mp hmem with h1 | h1
        · exact hpair c h1
        · exact hc c h1

/-- C11: invalid arguments are rejected before any call. `Initialize` with a
null stack walk returns `E_INVALIDARG` with no call made and `stack_frames_`
as it was; `PrintStackFrames` with a null breakpoint or a null coordinator
returns `E_INVALIDARG` without waiting for the ready signal and without adding
a record; `PopulateLocalVarsAndMethodArgs` with a null stack frame or a null IL
frame returns `E_INVALIDARG` without any metadata query and leaves the frame
as it was. -/
theorem invalid_arguments_rejected :
    (∀ (pdb_files : List PortablePdbFile) (stack_frames_ : List DbgStackFrame),
      StackFrameCollection.Initialize none pdb_files stack_frames_ =
        { hr := E_INVALIDARG, stack_frames_ := stack_frames_, trace := [] }) ∧
    (∀ (eval_coordinator : Option EvalCoordinator) (stack_frames_ : List DbgStackFrame),
      StackFrameCollection.PrintStackFrames none eval_coordinator stack_frames_ =
        { hr := E_INVALIDARG, breakpoint := none, trace := [] }) ∧
    (∀ (breakpoint : Option Breakpoint) (stack_frames_ : List DbgStackFrame),
      StackFrameCollection.PrintStackFrames breakpoint none stack_frames_ =
        { hr := E_INVALIDARG, breakpoint := breakpoint, trace := [] }) ∧
    (∀ (token : Nat) (il_frame : Option ICorDebugILFrame) (pdb_file : PortablePdbFile),
      PopulateLocalVarsAndMethodArgs token none il_frame pdb_file =
        { hr := E_INVALIDARG, frame := none, trace := [] }) ∧
    (∀ (token : Nat) (dbg_stack_frame : Option DbgStackFrame) (pdb_file : PortablePdbFile),
      PopulateLocalVarsAndMethodArgs token dbg_stack_frame none pdb_file =
        { hr := E_INVALIDARG, frame := dbg_stack_frame, trace := [] }) := by
  refine ⟨fun _ _ => rfl, fun _ _ => rfl, ?_, fun _ _ _ => rfl, ?_⟩
  · intro breakpoint stack_frames_
    cases breakpoint <;> rfl
  · intro token dbg_stack_frame pdb_file
    cases dbg_stack_frame <;> rfl

/-- C11, on the samples: with a null coordinator the two stored frames are not
printed and the breakpoint message stays without stack frames; with a null
stack walk nothing is called. -/
theorem invalid_arguments_rejected_witness :
    StackFrameCollection.PrintStackFrames (some sampleBreakpoint) none storedFrames =
      { hr := E_INVALIDARG, breakpoint := some sampleBreakpoint, trace := [] } ∧
    StackFrameCollection.Initialize none loadedPdbs storedFrames =
      { hr := E_INVALIDARG, stack_frames_ := storedFrames, trace := [] } ∧
    E_INVALIDARG < 0 :=
  ⟨invalid_arguments_rejected.2.2.1 (some sampleBreakpoint) storedFrames,
    invalid_arguments_rejected.1 loadedPdbs storedFrames, by decide⟩

/-- C12: the stored frames are emitted as an ordered list. With non-null
arguments and `PopulateStackFrame` succeeding on every stored frame,
`PrintStackFrames` returns `S_OK` and appends exactly one record per stored
frame to the breakpoint, the `i`-th record for the `i`-th frame, with
`method_name` the class name, a dot and the method name of the frame, the
location line its line number and the location path its file. -/
theorem print_emits_ordered_records (breakpoint : Breakpoint)
    (eval_coordinator : EvalCoordinator) (stack_frames_ : List DbgStackFrame)
    (h : ∀ f ∈ stack_frames_, 0 ≤ (eval_coordinator.PopulateStackFrame f).1) :
    (StackFrameCollection.PrintStackFrames (some breakpoint) (some eval_coordinator)
      stack_frames_).hr = S_OK ∧
    ∃ records : List StackFrame,
      (StackFrameCollection.PrintStackFrames (some breakpoint) (some eval_coordinator)
        stack_frames_).breakpoint =
        some { breakpoint with stack_frames := breakpoint.stack_frames ++ records } ∧
      records.length = stack_frames_.length ∧
      ∀ (i : Nat) (f : DbgStackFrame), stack_frames_[i]? = some f →
        ∃ record, records[i]? = some record ∧
          record.method_name = f.GetClass ++ "." ++ f.GetMethod ∧
          record.location = some { path := f.GetFile, line := f.GetLineNumber } := by
  have hloop := printLoop_of_succeed eval_coordinator stack_frames_ breakpoint
    [PrintCall.WaitForReadySignal] h
  have hres : StackFrameCollection.PrintStackFrames (some breakpoint) (some eval_coordinator)
      stack_frames_ =
      { hr := S_OK
        breakpoint := some { breakpoint with
          stack_frames := breakpoint.stack_frames ++
            stack_frames_.map (emittedRecord eval_coordinator) }
        trace := [PrintCall.WaitForReadySignal] ++
          stack_frames_.flatMap (frameCalls eval_coordinator) ++
          [PrintCall.SignalFinishedPrintingVariable] } := by
    simp only [StackFrameCollection.PrintStackFrames, hloop]
  rw [hres]
  refine ⟨rfl, stack_frames_.map (emittedRecord eval_coordinator), rfl, by simp, ?_⟩
  intro i f hi
  exact ⟨emittedRecord eval_coordinator f, by simp [List.getElem?_map, hi], rfl, rfl⟩

/-- C12, on the sample: the two stored frames are emitted as `A.M` at
`Foo.cs:10` and `B.N` at `Bar.cs:11`, in that order. -/
theorem print_emits_ordered_records_witness :
    (StackFrameCollection.PrintStackFrames (some sampleBreakpoint) (some sampleCoordinator)
      storedFrames).breakpoint =
      some { id := "bp-1",
             stack_frames :=
               [{ method_name := "A.M", location := some { path := "Foo.cs", line := 10 },
                  locals := [{ name := "x", value := "0" }] },
                { method_name := "B.N", location := some { path := "Bar.cs", line := 11 },
                  locals := [] }] } ∧
    (StackFrameCollection.PrintStackFrames (some sampleBreakpoint) (some sampleCoordinator)
      storedFrames).hr = S_OK :=
  ⟨by decide,
    (print_emits_ordered_records sampleBreakpoint sampleCoordinator storedFrames
      (by decide)).1⟩

/-- The two ways a run of `PrintStackFrames` on non-null arguments ends: every
stored frame was populated, the finished signal is the last call and `S_OK` is
returned; or `PopulateStackFrame` failed on a stored frame, its code is
returned and the finished signal is not given. -/
theorem print_run (breakpoint : Breakpoint) (eval_coordinator : EvalCoordinator)
    (stack_frames_ : List DbgStackFrame) :
    ∃ calls, LoopCallsOnly calls ∧
      (((StackFrameCollection.PrintStackFrames (some breakpoint) (some eval_coordinator)
            stack_frames_).hr = S_OK ∧
          (StackFrameCollection.PrintStackFrames (some breakpoint) (some eval_coordinator)
            stack_frames_).trace =
            PrintCall.WaitForReadySignal :: (calls ++
              [PrintCall.SignalFinishedPrintingVariable]) ∧
          calls = stack_frames_.flatMap (frameCalls eval_coordinator) ∧
          ∀ f ∈ stack_frames_, 0 ≤ (eval_coordinator.PopulateStackFrame f).1) ∨
        ((StackFrameCollection.PrintStackFrames (some breakpoint) (some eval_coordinator)
            stack_frames_).hr < 0 ∧
          (StackFrameCollection.PrintStackFrames (some breakpoint) (some eval_coordinator)
            stack_frames_).trace = PrintCall.WaitForReadySignal :: calls ∧
          ∃ f ∈ stack_frames_, (eval_coordinator.PopulateStackFrame f).1 =
            (StackFrameCollection.PrintStackFrames (some breakpoint) (some eval_coordinator)
              stack_frames_).hr)) := by
  obtain ⟨calls, hcalls, honly⟩ := printLoop_calls eval_coordinator stack_frames_ breakpoint
    [PrintCall.WaitForReadySignal]
  refine ⟨calls, honly, ?_⟩
  cases hret : (printLoop eval_coordinator stack_frames_ breakpoint
      [PrintCall.WaitForReadySignal]).returned with
  | none =>
    left
    have hall := printLoop_none eval_coordinator stack_frames_ breakpoint
      [PrintCall.WaitForReadySignal] hret
    have hloop := printLoop_of_succeed eval_coordinator stack_frames_ breakpoint
      [PrintCall.WaitForReadySignal] hall
    have hc : calls = stack_frames_.flatMap (frameCalls eval_coordinator) := by
      rw [hloop] at hcalls
      exact (List.append_cancel_left hcalls).symm
    refine ⟨?_, ?_, hc, hall⟩
    · simp only [StackFrameCollection.PrintStackFrames, hret]
    · simp only [StackFrameCollection.PrintStackFrames, hret, hcalls]
      simp
  | some hr =>
    right
    obtain ⟨hneg, f, hf, hfe⟩ := printLoop_returned eval_coordinator stack_frames_
      breakpoint [PrintCall.WaitForReadySignal] hr hret
    refine ⟨?_, ?_, f, hf, ?_⟩
    · simp only [StackFrameCollection.PrintStackFrames, hret]
      exact hneg
    · simp only [StackFrameCollection.PrintStackFrames, hret, hcalls]
      simp
    · simp only [StackFrameCollection.PrintStackFrames, hret]
      exact hfe

/-- C14: order of the readiness handshake. In every run of `PrintStackFrames`
on non-null arguments: `WaitForReadySignal` is the first call and is made
exactly once, so before any record is added; `SignalFinishedPrintingVariable`
is made at most once; when it is made, it is the last call, after the record of
every stored frame has been added and populated successfully; it is made if
and only if `S_OK` is returned; and it is not made when `PopulateStackFrame`
fails on some stored frame. -/
theorem readiness_handshake_order (breakpoint : Breakpoint)
    (eval_coordinator : EvalCoordinator) (stack_frames_ : List DbgStackFrame) :
    (∃ later, (StackFrameCollection.PrintStackFrames (some breakpoint)
        (some eval_coordinator) stack_frames_).trace =
        PrintCall.WaitForReadySignal :: later ∧ PrintCall.WaitForReadySignal ∉ later) ∧
    (StackFrameCollection.PrintStackFrames (some breakpoint) (some eval_coordinator)
      stack_frames_).trace.count PrintCall.SignalFinishedPrintingVariable ≤ 1 ∧
    (PrintCall.SignalFinishedPrintingVariable ∈
        (StackFrameCollection.PrintStackFrames (some breakpoint) (some eval_coordinator)
          stack_frames_).trace →
      (StackFrameCollection.PrintStackFrames (some breakpoint) (some eval_coordinator)
        stack_frames_).trace =
        PrintCall.WaitForReadySignal ::
          (stack_frames_.flatMap (frameCalls eval_coordinator) ++
            [PrintCall.SignalFinishedPrintingVariable]) ∧
      ∀ f ∈ stack_frames_, 0 ≤ (eval_coordinator.PopulateStackFrame f).1) ∧
    (PrintCall.SignalFinishedPrintingVariable ∈
        (StackFrameCollection.PrintStackFrames (some breakpoint) (some eval_coordinator)
          stack_frames_).trace ↔
      (StackFrameCollection.PrintStackFrames (some breakpoint) (some eval_coordinator)
        stack_frames_).hr = S_OK) ∧
    ((∃ f ∈ stack_frames_, (eval_coordinator.PopulateStackFrame f).1 < 0) →
      PrintCall.SignalFinishedPrintingVariable ∉
        (StackFrameCollection.PrintStackFrames (some breakpoint) (some eval_coordinator)
          stack_frames_).trace) := by
  obtain ⟨calls, honly, hrun⟩ := print_run breakpoint eval_coordinator stack_frames_
  have hwait : PrintCall.WaitForReadySignal ∉ calls := fun hm => (honly _ hm).1 rfl
  have hsig : PrintCall.SignalFinishedPrintingVariable ∉ calls := fun hm => (honly _ hm).2 rfl
  have hcount : calls.count PrintCall.SignalFinishedPrintingVariable = 0 :=
    List.count_eq_zero.mpr hsig
  rcases hrun with ⟨hok, htrace, hc, hall⟩ | ⟨hneg, htrace, f, hf, hfe⟩
  · rw [htrace, hok]
    refine ⟨⟨_, rfl, ?_⟩, ?_, ?_, ?_, ?_⟩
    · intro hm
      rcases List.mem_append.mp hm with h1 | h1
      · exact hwait h1
      · simp at h1
    · simp [List.count_cons, List.count_append, hcount]
    · intro _
      exact ⟨by rw [hc], hall⟩
    · exact ⟨fun _ => rfl, fun _ => by simp⟩
    · rintro ⟨g, hg, hlt⟩
      exact absurd (hall g hg) (not_le.mpr hlt)
  · have hne : ¬ (StackFrameCollection.PrintStackFrames (some breakpoint)
        (some eval_coordinator) stack_frames_).hr = S_OK := by
      intro h0
      rw [h0] at hneg
      exact absurd hneg (by decide)
    have hnot : PrintCall.SignalFinishedPrintingVariable ∉
        PrintCall.WaitForReadySignal :: calls := by
      intro hm
      rcases List.mem_cons.mp hm with h1 | h1
      · cases h1
      · exact hsig h1
    rw [htrace]
    refine ⟨⟨_, rfl, hwait⟩, ?_, ?_, ?_, ?_⟩
    · rw [List.count_eq_zero.mpr hnot]
      exact Nat.zero_le 1
    · intro hm
      exact absurd hm hnot
    · exact ⟨fun hm => absurd hm hnot, fun h0 => absurd h0 hne⟩
    · intro _
      exact hnot

/-- C14, on the samples: with every frame populated the run is the ready
signal, the two calls of each frame and the finished signal; when the second
frame fails, the run ends on its `PopulateStackFrame` without the finished
signal and returns `E_FAIL`. -/
theorem readiness_handshake_order_witness :
    (StackFrameCollection.PrintStackFrames (some sampleBreakpoint) (some sampleCoordinator)
      storedFrames).trace =
      [PrintCall.WaitForReadySignal, PrintCall.add_stack_frames,
        PrintCall.PopulateStackFrame S_OK, PrintCall.add_stack_frames,
        PrintCall.PopulateStackFrame S_OK, PrintCall.SignalFinishedPrintingVariable] ∧
    StackFrameCollection.PrintStackFrames (some sampleBreakpoint) (some failingCoordinator)
      storedFrames =
      { hr := E_FAIL,
        breakpoint := some
          { id := "bp-1",
            stack_frames :=
              [{ method_name := "A.M", location := some { path := "Foo.cs", line := 10 },
                 locals := [] },
               { method_name := "B.N", location := some { path := "Bar.cs", line := 11 },
                 locals := [] }] },
        trace := [PrintCall.WaitForReadySignal, PrintCall.add_stack_frames,
          PrintCall.PopulateStackFrame S_OK, PrintCall.add_stack_frames,
          PrintCall.PopulateStackFrame E_FAIL] } ∧
    PrintCall.SignalFinishedPrintingVariable ∉
      (StackFrameCollection.PrintStackFrames (some sampleBreakpoint) (some failingCoordinator)
        storedFrames).trace :=
  ⟨by decide, by decide,
    (readiness_handshake_order sampleBreakpoint failingCoordinator storedFrames).2.2.2.2
      (by decide)⟩

/-! ## The method lookup and the walk -/

/-- Once the two queries on the declaring type have succeeded, the body run
for the matched method has set the file, the method name and the class name
of the frame. -/
theorem resolveMatchedMethod_names (il_frame : ICorDebugILFrame)
    (metadata_import : IMetaDataImport) (method_name : List Nat) (type_def : Nat)
    (document_index : DocumentIndex) (method : MethodInfo) (frame : DbgStackFrame)
    (trace : List Event)
    (h1 : 0 ≤ (metadata_import.GetTypeDefProps type_def 0).hr)
    (h2 : 0 ≤ (metadata_import.GetTypeDefProps type_def
      (metadata_import.GetTypeDefProps type_def 0).name_length).hr) :
    (resolveMatchedMethod il_frame metadata_import method_name type_def document_index
      method frame trace).frame.file = document_index.file_path ∧
    (resolveMatchedMethod il_frame metadata_import method_name type_def document_index
      method frame trace).frame.method = method_name ∧
    (resolveMatchedMethod il_frame metadata_import method_name type_def document_index
      method frame trace).frame.class_name = typeNameOf metadata_import type_def := by
  simp only [resolveMatchedMethod, FAILED, decide_eq_true_eq, if_neg (not_lt.mpr h1),
    if_neg (not_lt.mpr h2)]
  split_ifs
  · exact ⟨rfl, rfl, rfl⟩
  · exact ⟨rfl, rfl, rfl⟩
  · exact matchSequencePoint_names _ _ _ _

/-- When resolving the frame against a symbol file returns `S_FALSE` and
leaves the frame as it was, the loop over the symbol files goes on to the next
file with the same frame, without a push. -/
theorem pdbLoop_continue (target_function_token target_module_token : Nat)
    (il_frame : ICorDebugILFrame) (pdb_file : PortablePdbFile)
    (rest : List PortablePdbFile) (stack_frame : DbgStackFrame) (trace : List Event)
    (hc : pdb_file.callsSucceed)
    (hr : (populateBody target_function_token stack_frame il_frame pdb_file).hr = S_FALSE)
    (hf : (populateBody target_function_token stack_frame il_frame pdb_file).frame
      = stack_frame) :
    ∃ trace2,
      pdbLoop target_function_token target_module_token il_frame stack_frame
          (pdb_file :: rest) trace =
        pdbLoop target_function_token target_module_token il_frame stack_frame rest
          trace2 := by
  obtain ⟨s1, s2⟩ := hc
  by_cases ht : target_module_token ≠ pdb_file.debug_module_token.2
  · exact ⟨trace ++ [⟨Call.GetDebugModule, pdb_file.GetDebugModule⟩] ++
        [⟨Call.PdbModuleGetToken, pdb_file.debug_module_token.1⟩], by
      simp only [pdbLoop, FAILED, decide_eq_true_eq, if_neg (not_lt.mpr s1),
        if_neg (not_lt.mpr s2), if_pos ht]⟩
  · exact ⟨trace ++ [⟨Call.GetDebugModule, pdb_file.GetDebugModule⟩] ++
        [⟨Call.PdbModuleGetToken, pdb_file.debug_module_token.1⟩] ++
        (populateBody target_function_token stack_frame il_frame pdb_file).trace, by
      simp only [pdbLoop, populate_some, FAILED, decide_eq_true_eq, if_neg (not_lt.mpr s1),
        if_neg (not_lt.mpr s2), if_neg ht, hr, hf, if_true, Option.getD_some]⟩

/-- With the queries of the lookup succeeding, resolving the frame is the
outcome of the loop over the documents for the live name and signature. -/
theorem populate_lookup (target_function_token : Nat) (frame : DbgStackFrame)
    (il_frame : ICorDebugILFrame) (pdb_file : PortablePdbFile)
    (h : lookupQueriesSucceed pdb_file target_function_token) :
    ∃ trace, populateBody target_function_token frame il_frame pdb_file =
      documentLoop il_frame pdb_file.metadata_import
        (methodNameOf pdb_file.metadata_import target_function_token)
        (liveSignature pdb_file.metadata_import target_function_token) frame
        pdb_file.document_index_table trace := by
  rcases populate_cases target_function_token frame il_frame pdb_file with
    ⟨⟨size, h1, _⟩, _⟩ | he
  · exact absurd (h.1 size) (not_le.mpr h1)
  · exact he

/-- With the queries of the lookup succeeding and no method of the symbol file
having the live signature, resolving the frame returns `S_FALSE` and leaves
the frame as it was. -/
theorem populate_not_found (target_function_token : Nat) (frame : DbgStackFrame)
    (il_frame : ICorDebugILFrame) (pdb_file : PortablePdbFile)
    (h : lookupQueriesSucceed pdb_file target_function_token)
    (hnone : firstMatchingMethod pdb_file.metadata_import
      (liveSignature pdb_file.metadata_import target_function_token)
      pdb_file.document_index_table = none) :
    (populateBody target_function_token frame il_frame pdb_file).hr = S_FALSE ∧
    (populateBody target_function_token frame il_frame pdb_file).frame = frame := by
  obtain ⟨trace, e⟩ := populate_lookup target_function_token frame il_frame pdb_file h
  have hd := documentLoop_first il_frame pdb_file.metadata_import
    (methodNameOf pdb_file.metadata_import target_function_token)
    (liveSignature pdb_file.metadata_import target_function_token) frame
    pdb_file.document_index_table trace h.2
  rw [hnone] at hd
  rw [e]
  exact hd

/-- The queries of the lookup of the live method `0x06000001` in the symbol
file with two documents succeed. -/
theorem twoDocumentPdb_lookup : lookupQueriesSucceed twoDocumentPdb 0x06000001 := by
  constructor
  · intro size
    simp [twoDocumentPdb, threeMethodImport, sampleImport, S_OK]
  · intro doc hdoc m hm
    simp only [twoDocumentPdb, List.mem_cons, List.mem_singleton, List.not_mem_nil,
      or_false] at hdoc
    rcases hdoc with rfl | rfl
    · simp only [List.mem_singleton] at hm
      subst hm
      simp [twoDocumentPdb, threeMethodImport, S_OK]
    · simp only [List.mem_cons, List.mem_singleton, List.not_mem_nil, or_false] at hm
      rcases hm with rfl | rfl <;>
        simp [twoDocumentPdb, threeMethodImport, sampleImport, sampleMethod, S_OK]

/-- C13, as the claim states it, fails: no method of the first symbol file has
the signature of the live method, `PopulateLocalVarsAndMethodArgs` returns
`S_FALSE` for it, and the frame is still added to the result, through the
second symbol file of the same module token. -/
theorem method_not_found_counterexample :
    firstMatchingMethod otherSignaturePdb.metadata_import
      (liveSignature otherSignaturePdb.metadata_import 0x06000001)
      otherSignaturePdb.document_index_table = none ∧
    (PopulateLocalVarsAndMethodArgs 0x06000001 (some DbgStackFrame.fresh)
      (some (sampleILFrame 0x15 CorDebugMappingResult.MAPPING_EXACT))
      otherSignaturePdb).hr = S_FALSE ∧
    (StackFrameCollection.Initialize
      (some [samplePosition (sampleILFrame 0x15 CorDebugMappingResult.MAPPING_EXACT)])
      [otherSignaturePdb, samplePdb 1 [sampleMethod threePoints twoScopes]]
      []).stack_frames_ =
      [{ file := "Foo.cs", method := [77, 0], class_name := [65, 0], line_number := 11,
         local_variables := [sampleVariable "x" 0] }] ∧
    (StackFrameCollection.Initialize
      (some [samplePosition (sampleILFrame 0x15 CorDebugMappingResult.MAPPING_EXACT)])
      [otherSignaturePdb, samplePdb 1 [sampleMethod threePoints twoScopes]]
      []).stack_frames_ ≠ [] := by
  decide

/-- C13, amended: method lookup is by signature, first match in document
order. With the queries of the lookup succeeding, the method
`PopulateLocalVarsAndMethodArgs` uses is the first, in the order of the
document index table and then of the methods of a document, whose signature
equals that of the live token, and once the two queries on its declaring type
have succeeded the file of the frame is the path of its document. When no
method has an equal signature, `S_FALSE` is returned with the frame as it was,
and `Initialize` goes on to the next symbol file without adding the frame; the
frame gets no entry when this holds for every symbol file. -/
theorem method_lookup_first_match (token : Nat) (frame : DbgStackFrame)
    (il_frame : ICorDebugILFrame) (pdb_file : PortablePdbFile)
    (h : lookupQueriesSucceed pdb_file token) :
    (∀ (d : DocumentIndex) (m : MethodInfo),
      firstMatchingMethod pdb_file.metadata_import
        (liveSignature pdb_file.metadata_import token) pdb_file.document_index_table
        = some (d, m) →
      ((pdb_file.metadata_import.GetMethodProps m.method_def 0).signature =
          liveSignature pdb_file.metadata_import token ∧
        ∃ before after earlier later,
          pdb_file.document_index_table = before ++ d :: after ∧
          d.methods = earlier ++ m :: later ∧
          (∀ d2 ∈ before, ∀ m2 ∈ d2.methods,
            (pdb_file.metadata_import.GetMethodProps m2.method_def 0).signature ≠
              liveSignature pdb_file.metadata_import token) ∧
          ∀ m2 ∈ earlier,
            (pdb_file.metadata_import.GetMethodProps m2.method_def 0).signature ≠
              liveSignature pdb_file.metadata_import token) ∧
      (∃ trace, populateBody token frame il_frame pdb_file =
        resolveMatchedMethod il_frame pdb_file.metadata_import
          (methodNameOf pdb_file.metadata_import token)
          (pdb_file.metadata_import.GetMethodProps m.method_def 0).type_def d m frame
          trace) ∧
      (0 ≤ (pdb_file.metadata_import.GetTypeDefProps
          (pdb_file.metadata_import.GetMethodProps m.method_def 0).type_def 0).hr →
        0 ≤ (pdb_file.metadata_import.GetTypeDefProps
          (pdb_file.metadata_import.GetMethodProps m.method_def 0).type_def
          (pdb_file.metadata_import.GetTypeDefProps
            (pdb_file.metadata_import.GetMethodProps m.method_def 0).type_def
            0).name_length).hr →
        ∃ entry, (PopulateLocalVarsAndMethodArgs token (some frame) (some il_frame)
            pdb_file).frame = some entry ∧
          entry.file = d.file_path)) ∧
    (firstMatchingMethod pdb_file.metadata_import
        (liveSignature pdb_file.metadata_import token) pdb_file.document_index_table
        = none →
      (∀ d ∈ pdb_file.document_index_table, ∀ m ∈ d.methods,
        (pdb_file.metadata_import.GetMethodProps m.method_def 0).signature ≠
          liveSignature pdb_file.metadata_import token) ∧
      (PopulateLocalVarsAndMethodArgs token (some frame) (some il_frame) pdb_file).hr
        = S_FALSE ∧
      (PopulateLocalVarsAndMethodArgs token (some frame) (some il_frame) pdb_file).frame
        = some frame ∧
      ∀ (module_token : Nat) (rest : List PortablePdbFile) (trace : List Event),
        pdb_file.callsSucceed →
        ∃ trace2,
          pdbLoop token module_token il_frame frame (pdb_file :: rest) trace =
            pdbLoop token module_token il_frame frame rest trace2) ∧
    (∀ (pdb_files : List PortablePdbFile) (position : StackWalkPosition),
      position.callsSucceed →
      (∀ p ∈ pdb_files, p.callsSucceed ∧
        lookupQueriesSucceed p position.il_frame.function_token.2 ∧
        firstMatchingMethod p.metadata_import
          (liveSignature p.metadata_import position.il_frame.function_token.2)
          p.document_index_table = none) →
      frameEntry pdb_files position = none) := by
  refine ⟨?_, ?_, ?_⟩
  · intro d m hfirst
    obtain ⟨trace, e⟩ := populate_lookup token frame il_frame pdb_file h
    have hd := documentLoop_first il_frame pdb_file.metadata_import
      (methodNameOf pdb_file.metadata_import token)
      (liveSignature pdb_file.metadata_import token) frame
      pdb_file.document_index_table trace h.2
    rw [hfirst] at hd
    obtain ⟨t2, e2⟩ := hd
    refine ⟨firstMatchingMethod_some _ _ _ d m hfirst, ⟨t2, e.trans e2⟩, ?_⟩
    intro h1 h2
    refine ⟨_, rfl, ?_⟩
    rw [e, e2]
    exact (resolveMatchedMethod_names _ _ _ _ _ _ _ _ h1 h2).1
  · intro hnone
    obtain ⟨a, b⟩ := populate_not_found token frame il_frame pdb_file h hnone
    refine ⟨firstMatchingMethod_none _ _ _ hnone, a, by rw [populate_some, b], ?_⟩
    intro module_token rest trace hc
    exact pdbLoop_continue token module_token il_frame pdb_file rest frame trace hc a b
  · intro pdb_files position hc hall
    obtain ⟨t2, e⟩ := framePdbLoop_of_callsSucceed pdb_files position [] hc
    have hloop := pdbLoop_all_S_FALSE position.il_frame.function_token.2
      position.il_frame.module_token.2 position.il_frame pdb_files DbgStackFrame.fresh t2
      (fun p hp => ⟨(hall p hp).1, fun fr =>
        (populate_not_found _ fr position.il_frame p (hall p hp).2.1 (hall p hp).2.2).1⟩)
    rw [← e] at hloop
    exact hloop.1

/-- C13, amended, on the sample: the live method `0x06000001` is looked up in
a symbol file whose first document holds a method of another signature and
whose second document, `Foo.cs`, holds two methods of its signature; the first
of these is used and the file of the frame is `Foo.cs`. -/
theorem method_lookup_first_match_witness :
    firstMatchingMethod twoDocumentPdb.metadata_import
      (liveSignature twoDocumentPdb.metadata_import 0x06000001)
      twoDocumentPdb.document_index_table =
      some ({ file_path := "Foo.cs",
              methods := [sampleMethod threePoints twoScopes,
                { sampleMethod threePoints twoScopes with method_def := 0x06000002 }] },
            sampleMethod threePoints twoScopes) ∧
    ∃ entry, (PopulateLocalVarsAndMethodArgs 0x06000001 (some DbgStackFrame.fresh)
        (some (sampleILFrame 0x15 CorDebugMappingResult.MAPPING_EXACT))
        twoDocumentPdb).frame = some entry ∧
      entry.file = "Foo.cs" :=
  ⟨by decide,
    ((method_lookup_first_match 0x06000001 DbgStackFrame.fresh
      (sampleILFrame 0x15 CorDebugMappingResult.MAPPING_EXACT) twoDocumentPdb
      twoDocumentPdb_lookup).1
      { file_path := "Foo.cs",
        methods := [sampleMethod threePoints twoScopes,
          { sampleMethod threePoints twoScopes with method_def := 0x06000002 }] }
      (sampleMethod threePoints twoScopes) (by decide)).2.2 (by decide) (by decide)⟩

end google_cloud_debugger
